import Mathlib

/-!
# A verification model of the bpfd program manager

This file gives a shallow embedding of the core of the bpfd daemon
(`src/bpfd/src/bpf.rs` together with the TC dispatcher module
`src/bpfd/src/multiprog/tc.rs`) and proves properties of that embedding.

The embedding follows the Rust source closely:

* `Uuid` values are modelled as `Nat`.
* The `HashMap`s of `BpfManager` (`programs`, `maps`, `dispatchers`) are
  modelled as association lists `List (Nat × _)`; the order of such a list
  stands for the (arbitrary) iteration order of the hash map.
* Filesystem writes are modelled as always-succeeding updates of explicit
  state components (`persisted`, `mapDirs`); genuinely fallible kernel and
  loader interactions (bytecode load, attach, pin, dispatcher build) are
  driven by a `KernelOracle` describing their outcome.
* Pieces of the repository that live outside the provided sources
  (`command.rs`, `errors.rs`, `bpfd_api`, `multiprog/mod.rs`) are modelled
  from the natural-language specification; every such definition carries a
  doc comment starting with `Modelled from the spec:`.
-/

namespace Bpfd

/-- Modelled from the spec: `Direction` (command.rs is not in the provided
sources); a TC program attaches on the ingress or egress side. -/
inductive Direction
  | ingress
  | egress
  deriving DecidableEq, Repr

/-- Modelled from the spec: the program-type enumeration of `bpfd_api`
(kinds XDP, TC, Tracepoint, and Probe for kprobe/uprobe) as used by
`Program::kind()` and `list_programs`. -/
inductive ProgramType
  | xdp
  | tc
  | tracepoint
  | probe
  deriving DecidableEq, Repr

/-- Modelled from the spec: probe kinds of `bpfd_api::ProbeType`. -/
inductive ProbeType
  | kprobe
  | kretprobe
  | uprobe
  | uretprobe
  deriving DecidableEq, Repr

/-- Kernel-populated program record; only the kernel id matters for the
claims, the remaining fields are opaque to the manager logic. -/
structure KernelInfo where
  id : Nat
  deriving DecidableEq, Repr

/-- `Metadata` as constructed in `bpf.rs` (`command::Metadata { priority,
name, attached }`). -/
structure Metadata where
  priority : Int
  name : String
  attached : Bool
  deriving DecidableEq, Repr

/-- Lexicographic comparison of character lists (the order underlying
Rust's `String` ordering), written so that it evaluates in the kernel. -/
def charListLt : List Char → List Char → Bool
  | [], [] => false
  | [], _ :: _ => true
  | _ :: _, [] => false
  | a :: as, b :: bs => if a < b then true else if b < a then false else charListLt as bs

/-- Rust's `String` ordering: lexicographic on the characters. -/
def strLt (a b : String) : Bool := charListLt a.data b.data

/-- Modelled from the spec: the `Ord` implementation of `Metadata` lives in
`command.rs`, which is not among the provided sources.  It is modelled as
the lexicographic (derived) `Ord` over the fields in declaration order —
`(priority, name, attached)` — whose primary key is the priority,
matching the spec's "sort by priority ascending".  The boolean component
uses Rust's `false < true`.  Note that any comparator defined on
`Metadata` is a function of the fields `priority`, `name` and `attached`
only — it cannot observe a program id — and any lawful comparator ties
two *identical* metadata values; the C1 results rely only on these two
facts. -/
def Metadata.le (a b : Metadata) : Prop :=
  a.priority < b.priority ∨
    (a.priority = b.priority ∧
      (strLt a.name b.name = true ∨
        (a.name = b.name ∧ (a.attached = false ∨ b.attached = true))))

instance : DecidableRel Metadata.le := fun a b => by
  unfold Metadata.le
  infer_instance

/-- `ProgramData` as used in `bpf.rs` (path, section name, global data,
map owner uuid, owning username, kernel info). -/
structure ProgramData where
  path : String
  section_name : String
  global_data : List (String × List Nat)
  map_owner_uuid : Option Nat
  owner : String
  kernel_info : Option KernelInfo
  deriving DecidableEq, Repr

/-- `XdpProgramInfo` as constructed in `load_xdp_command`. -/
structure XdpProgramInfo where
  if_index : Nat
  current_position : Option Nat
  metadata : Metadata
  proceed_on : List Nat
  if_name : String
  deriving DecidableEq, Repr

/-- `TcProgramInfo` as constructed in `load_tc_command`. -/
structure TcProgramInfo where
  if_index : Nat
  current_position : Option Nat
  metadata : Metadata
  proceed_on : List Nat
  if_name : String
  direction : Direction
  deriving DecidableEq, Repr

/-- `TracepointProgramInfo` as constructed in `load_tracepoint_command`. -/
structure TracepointProgramInfo where
  tracepoint : String
  deriving DecidableEq, Repr

/-- `KprobeProgramInfo` as constructed in `load_kprobe_command`. -/
structure KprobeProgramInfo where
  fn_name : String
  offset : Nat
  retprobe : Bool
  namespace_ : Option String
  deriving DecidableEq, Repr

/-- `UprobeProgramInfo` as constructed in `load_uprobe_command`. -/
structure UprobeProgramInfo where
  fn_name : Option String
  offset : Nat
  target : String
  retprobe : Bool
  pid : Option Int
  namespace_ : Option String
  deriving DecidableEq, Repr

structure XdpProg where
  data : ProgramData
  info : XdpProgramInfo
  deriving DecidableEq, Repr

structure TcProg where
  data : ProgramData
  info : TcProgramInfo
  deriving DecidableEq, Repr

structure TracepointProg where
  data : ProgramData
  info : TracepointProgramInfo
  deriving DecidableEq, Repr

structure KprobeProg where
  data : ProgramData
  info : KprobeProgramInfo
  deriving DecidableEq, Repr

structure UprobeProg where
  data : ProgramData
  info : UprobeProgramInfo
  deriving DecidableEq, Repr

/-- The tagged program variant of `command.rs` as used throughout
`bpf.rs`. -/
inductive Program
  | xdp (p : XdpProg)
  | tc (p : TcProg)
  | tracepoint (p : TracepointProg)
  | kprobe (p : KprobeProg)
  | uprobe (p : UprobeProg)
  deriving DecidableEq, Repr

namespace Program

/-- `Program::data()`. -/
def data : Program → ProgramData
  | xdp p => p.data
  | tc p => p.data
  | tracepoint p => p.data
  | kprobe p => p.data
  | uprobe p => p.data

/-- Modelled from the spec: `Program::kind()` (command.rs); XDP and TC
programs report their own kinds, kprobe and uprobe report the shared
`Probe` kind used by `list_programs`. -/
def kind : Program → ProgramType
  | xdp _ => .xdp
  | tc _ => .tc
  | tracepoint _ => .tracepoint
  | kprobe _ => .probe
  | uprobe _ => .probe

/-- Modelled from the spec: `Program::if_index()`; only XDP and TC
programs carry an interface index. -/
def if_index : Program → Option Nat
  | xdp p => some p.info.if_index
  | tc p => some p.info.if_index
  | _ => none

/-- Modelled from the spec: `Program::direction()`; only TC programs carry
a direction. -/
def direction : Program → Option Direction
  | tc p => some p.info.direction
  | _ => none

/-- Modelled from the spec: `Program::metadata()`; the priority/name/
attached metadata of the multi-attach kinds (only ever used on XDP and TC
programs, after filtering by kind). -/
def metadata : Program → Metadata
  | xdp p => p.info.metadata
  | tc p => p.info.metadata
  | _ => { priority := 0, name := "", attached := false }

/-- Modelled from the spec: `Program::set_position()`; updates
`current_position` of an XDP or TC program. -/
def setPosition (pos : Option Nat) : Program → Program
  | xdp p => xdp { p with info := { p.info with current_position := pos } }
  | tc p => tc { p with info := { p.info with current_position := pos } }
  | p => p

/-- The `current_position` of an XDP or TC program. -/
def position : Program → Option Nat
  | xdp p => p.info.current_position
  | tc p => p.info.current_position
  | _ => none

/-- Modelled from the spec: `Program::set_attached()`. -/
def setAttached : Program → Program
  | xdp p => xdp { p with info := { p.info with metadata := { p.info.metadata with attached := true } } }
  | tc p => tc { p with info := { p.info with metadata := { p.info.metadata with attached := true } } }
  | p => p

/-- Modelled from the spec: `Program::set_kernel_info()`. -/
def setKernelInfo (ki : KernelInfo) : Program → Program
  | xdp p => xdp { p with data := { p.data with kernel_info := some ki } }
  | tc p => tc { p with data := { p.data with kernel_info := some ki } }
  | tracepoint p => tracepoint { p with data := { p.data with kernel_info := some ki } }
  | kprobe p => kprobe { p with data := { p.data with kernel_info := some ki } }
  | uprobe p => uprobe { p with data := { p.data with kernel_info := some ki } }

/-- `Program::owner()`: the username recorded at load time. -/
def owner (p : Program) : String := p.data.owner

/-- The priority recorded in the program's metadata. -/
def priority (p : Program) : Int := p.metadata.priority

end Program

/-- Dispatcher keys: `DispatcherId::Xdp(DispatcherInfo(if_index, None))` or
`DispatcherId::Tc(DispatcherInfo(if_index, Some(direction)))`.  Modelled
from the spec: `multiprog/mod.rs` is not among the provided sources. -/
inductive DispatcherId
  | xdpId (if_index : Nat)
  | tcId (if_index : Nat) (direction : Direction)
  deriving DecidableEq, Repr

namespace Program

/-- Modelled from the spec: `Program::dispatcher_id()`; XDP and TC
programs name their dispatcher key, other kinds have none. -/
def dispatcherId : Program → Option DispatcherId
  | xdp p => some (.xdpId p.info.if_index)
  | tc p => some (.tcId p.info.if_index p.info.direction)
  | _ => none

end Program

/-- `BpfMap`: pin path and `used_by` reference list of a shared map
group. -/
structure BpfMap where
  map_pin_path : String
  used_by : List Nat
  deriving DecidableEq, Repr

/-- In-memory record the manager keeps per dispatcher key; the revision is
what the surrounding logic inspects (`next_revision()`).  Modelled from
the spec: the dispatcher structs live under `multiprog/`, of which only
`tc.rs` is provided. -/
structure DispatcherState where
  revision : Nat
  deriving DecidableEq, Repr

/-- The error taxonomy of `errors.rs`.  Modelled from the spec: variants
mirror the `BpfdError` constructors used in `bpf.rs`; errors that the
source raises as `BpfdError::Error(string)` keep their message string. -/
inductive BpfdError
  | passedUUIDInUse (id : Nat)
  | tooManyPrograms
  | sectionNameNotValid (name : String)
  | dispatcherNotRequired
  | notAuthorized
  | invalidID
  | invalidInterface
  | invalidAttach (point : String)
  | unableToPinLink
  | unableToPinProgram
  | bpfProgramError
  | bpfLoadError
  | bytecodeError
  | dispatcherError
  | notLoaded
  | error (msg : String)
  deriving DecidableEq, Repr

deriving instance DecidableEq for Except

/-- Modelled from the spec: `RTDIR_FS_MAPS` of `bpfd_api::util::directories`
(the run-time directory holding per-group pinned maps, spec §6
`fs/maps/<group_id>`). -/
def RTDIR_FS_MAPS : String := "/run/bpfd/fs/maps"

/-- `get_map_index` (bpf.rs): the map group id is the owner's uuid when
`map_owner_uuid` is set, the program's own uuid otherwise; the boolean
says whether the program is the owner. -/
def getMapIndex (id : Nat) (map_owner_uuid : Option Nat) : Bool × Nat :=
  match map_owner_uuid with
  | some uuid => (false, uuid)
  | none => (true, id)

/-- `calc_map_pin_path` (bpf.rs): the pin directory of the program's map
group. -/
def calcMapPinPath (id : Nat) (map_owner_uuid : Option Nat) : Bool × String :=
  let (map_owner, map_index) := getMapIndex id map_owner_uuid
  (map_owner, RTDIR_FS_MAPS ++ "/" ++ toString map_index)

/-! ## Association-list helpers

`BpfManager`'s `HashMap`s are modelled as association lists; the list
order models the hash map's (arbitrary) iteration order.  `upsert` is
`HashMap::insert` (replace if present, append otherwise), `eraseKey` is
`HashMap::remove`. -/

/-- `HashMap::insert`: replace the entry for `k` if present, otherwise
append a new entry. -/
def upsert {α : Type} (l : List (Nat × α)) (k : Nat) (v : α) : List (Nat × α) :=
  if (l.lookup k).isSome then
    l.map (fun kv => if kv.1 = k then (k, v) else kv)
  else
    l ++ [(k, v)]

/-- `HashMap::remove` (only the removal of the binding; callers that need
the removed value look it up first). -/
def eraseKey {α : Type} (l : List (Nat × α)) (k : Nat) : List (Nat × α) :=
  l.filter (fun kv => kv.1 ≠ k)

/-- The mutable state of `BpfManager` together with the filesystem state
it owns: `persisted` models the per-program record files under
`RTDIR_PROGRAMS`, `mapDirs` the set of map pin directories under
`RTDIR_FS_MAPS`. -/
structure BpfState where
  programs : List (Nat × Program)
  maps : List (Nat × BpfMap)
  dispatchers : List (DispatcherId × DispatcherState)
  persisted : List (Nat × Program)
  mapDirs : List String
  deriving DecidableEq, Repr

/-- The empty manager state (`BpfManager::new`). -/
def initState : BpfState :=
  { programs := [], maps := [], dispatchers := [], persisted := [], mapDirs := [] }

/-- Dispatcher-map insert (keys are `DispatcherId`s). -/
def upsertDispatcher (l : List (DispatcherId × DispatcherState)) (k : DispatcherId)
    (v : DispatcherState) : List (DispatcherId × DispatcherState) :=
  if (l.lookup k).isSome then
    l.map (fun kv => if kv.1 = k then (k, v) else kv)
  else
    l ++ [(k, v)]

/-- Dispatcher-map remove. -/
def eraseDispatcher (l : List (DispatcherId × DispatcherState)) (k : DispatcherId) :
    List (DispatcherId × DispatcherState) :=
  l.filter (fun kv => kv.1 ≠ k)

/-- `fs::create_dir_all`: idempotent directory creation. -/
def insertDir (dirs : List String) (d : String) : List String :=
  if d ∈ dirs then dirs else dirs ++ [d]

/-- `fs::remove_dir_all`. -/
def removeDir (dirs : List String) (d : String) : List String :=
  dirs.filter (fun x => x ≠ d)

/-! ## Map bookkeeper (bpf.rs) -/

/-- `BpfManager::is_map_safe_to_delete`: false exactly when the program is
the map owner and other programs still reference the group. -/
def isMapSafeToDelete (s : BpfState) (id : Nat) (map_owner_uuid : Option Nat) : Bool :=
  let (map_owner, _) := getMapIndex id map_owner_uuid
  if map_owner then
    match s.maps.lookup id with
    | some map => decide (¬ map.used_by.length > 1)
    | none => true
  else
    true

/-- `BpfManager::manage_map_pin_path`: returns the pin path; an owner
creates the directory, a consumer fails if the owner's group is
unknown. -/
def manageMapPinPath (s : BpfState) (id : Nat) (map_owner_uuid : Option Nat) :
    Except BpfdError (String × BpfState) :=
  let (map_owner, map_pin_path) := calcMapPinPath id map_owner_uuid
  if map_owner then
    .ok (map_pin_path, { s with mapDirs := insertDir s.mapDirs map_pin_path })
  else
    match map_owner_uuid with
    | some x =>
        if (s.maps.lookup x).isSome then .ok (map_pin_path, s)
        else .error (.error "map_owner_uuid does not exists")
    | none => .error (.error "map_owner_uuid does not exists")

/-- `BpfManager::cleanup_map_pin_path`: removes the pin directory only if
this program would have created one (i.e. it is the owner). -/
def cleanupMapPinPath (s : BpfState) (id : Nat) (map_owner_uuid : Option Nat) : BpfState :=
  let (map_owner, map_pin_path) := calcMapPinPath id map_owner_uuid
  if map_owner then { s with mapDirs := removeDir s.mapDirs map_pin_path } else s

/-- `BpfManager::save_map`: an owner inserts a fresh group with
`used_by = [id]`, a consumer appends its id to the owner's `used_by`. -/
def saveMap (s : BpfState) (id : Nat) (map_owner_uuid : Option Nat) (map_pin_path : String) :
    Except BpfdError BpfState :=
  let (map_owner, _) := getMapIndex id map_owner_uuid
  if map_owner then
    .ok { s with maps := upsert s.maps id { map_pin_path := map_pin_path, used_by := [id] } }
  else
    match map_owner_uuid with
    | some x =>
        match s.maps.lookup x with
        | some map => .ok { s with maps := upsert s.maps x { map with used_by := map.used_by ++ [id] } }
        | none => .error (.error "map_owner_uuid does not exists")
    | none => .error (.error "map_owner_uuid does not exists")

/-- `Vec::swap_remove` of the first occurrence of `v`, as used on
`used_by` in `delete_map`. -/
def swapRemove (l : List Nat) (v : Nat) : List Nat :=
  match l.findIdx? (fun x => x = v) with
  | some i => (l.set i (l.getLastD 0)).dropLast
  | none => l

/-- `BpfManager::delete_map`: remove `id` from the group's `used_by`; when
the group becomes empty, remove the group and its pin directory. -/
def deleteMap (s : BpfState) (id : Nat) (map_owner_uuid : Option Nat) :
    Except BpfdError BpfState :=
  let (_, map_index) := getMapIndex id map_owner_uuid
  match s.maps.lookup map_index with
  | none => .error (.error "map_pin_path does not exists")
  | some map =>
      let used_by := swapRemove map.used_by id
      if used_by.isEmpty then
        let (_, path) := calcMapPinPath id map_owner_uuid
        .ok { s with maps := eraseKey s.maps map_index, mapDirs := removeDir s.mapDirs path }
      else
        .ok { s with maps := upsert s.maps map_index { map with used_by := used_by } }

/-! ## Sorting (`BpfManager::sort_programs`) -/

/-- The dispatcher-key filter used by `sort_programs`, `collect_programs`
and the per-key counting in `add_multi_attach_program` /
`remove_multi_attach_program`. -/
def matchesKey (pt : ProgramType) (ifi : Option Nat) (dir : Option Direction)
    (p : Program) : Bool :=
  p.kind = pt ∧ p.if_index = ifi ∧ p.direction = dir

/-- The sort relation used by `extensions.sort_by(|a, b|
a.metadata().cmp(&b.metadata()))` lifted to registry entries. -/
def progLe (a b : Nat × Program) : Prop :=
  Metadata.le a.2.metadata b.2.metadata

instance : DecidableRel progLe := fun a b =>
  inferInstanceAs (Decidable (Metadata.le a.2.metadata b.2.metadata))

/-- The `enumerate`-style position assignment at the end of
`sort_programs`: entry `i` of the sorted extension list gets
`current_position = Some i`. -/
def assignPositions : Nat → List (Nat × Program) → List (Nat × Program)
  | _, [] => []
  | i, (k, p) :: rest => (k, p.setPosition (some i)) :: assignPositions (i + 1) rest

/-- The sorted, position-assigned extension list of one dispatcher key
(the `extensions` vector at the end of `sort_programs`). -/
def sortedAssigned (l : List (Nat × Program)) (pt : ProgramType) (ifi : Option Nat)
    (dir : Option Direction) : List (Nat × Program) :=
  assignPositions 0 (List.insertionSort progLe
    (l.filter (fun kv => matchesKey pt ifi dir kv.2)))

/-- The in-place update of one registry entry by `sort_programs` (the
entries were mutated through `iter_mut`; a pure rendering replaces each
entry of the key by its position-assigned version). -/
def writeBack (assigned : List (Nat × Program)) (kv : Nat × Program) : Nat × Program :=
  match assigned.lookup kv.1 with
  | some p' => (kv.1, p')
  | none => kv

/-- `BpfManager::sort_programs`: stable-sort the programs of one
dispatcher key by their metadata and assign zero-based positions; the
registry entries of the key are updated in place, everything else is
untouched. -/
def sortPrograms (s : BpfState) (pt : ProgramType) (ifi : Option Nat)
    (dir : Option Direction) : BpfState :=
  let assigned := sortedAssigned s.programs pt ifi dir
  { s with programs := s.programs.map (writeBack assigned) }

/-- `BpfManager::collect_programs`. -/
def collectPrograms (s : BpfState) (pt : ProgramType) (ifi : Option Nat)
    (dir : Option Direction) : List (Nat × Program) :=
  s.programs.filter (fun kv => matchesKey pt ifi dir kv.2)

/-! ## The kernel/loader environment

Every interaction with the kernel, the bytecode store or `aya` that can
fail is driven by an oracle describing the environment's behaviour during
one command. -/

/-- Outcomes of the fallible kernel/loader interactions of a single
command.  `kinfo` is the kernel record the kernel assigns to a freshly
loaded program. -/
structure KernelOracle where
  bytecodeOk : Bool
  loadOk : Bool
  sectionOk : Bool
  progLoadOk : Bool
  loadedProbeType : ProbeType
  attachOk : Bool
  pinLinkOk : Bool
  pinProgOk : Bool
  dispatcherOk : Bool
  kinfo : Nat → KernelInfo
  newUuid : Nat

/-- The superuser account name (`SUPERUSER` in bpf.rs). -/
def SUPERUSER : String := "bpfctl"

/-- The copy-back loop `programs.iter().for_each(|(i, p)| {
self.programs.insert(i, p); })` of `add_multi_attach_program`. -/
def upsertAll (ps : List (Nat × Program)) (upd : List (Nat × Program)) :
    List (Nat × Program) :=
  upd.foldl (fun acc kv => upsert acc kv.1 kv.2) ps

/-- The dispatcher-rebuilding tail of `add_multi_attach_program` (after
section check, per-key count and dispatcher-id resolution): insert the
program, sort the key, rebuild the dispatcher (next revision =
previous + 1, or 1), copy the kernel-populated programs back, mark the
new program attached and persist it; on dispatcher failure remove the new
program and its persisted record. -/
def addMultiCore (o : KernelOracle) (s : BpfState) (p : Program) (id : Nat)
    (did : DispatcherId) : Except BpfdError Nat × BpfState :=
  let s1 : BpfState := { s with programs := upsert s.programs id p }
  let s2 := sortPrograms s1 p.kind p.if_index p.direction
  let programs := collectPrograms s2 p.kind p.if_index p.direction
  let old_dispatcher := s2.dispatchers.lookup did
  let s3 : BpfState := { s2 with dispatchers := eraseDispatcher s2.dispatchers did }
  let next_revision := match old_dispatcher with
    | some old => old.revision + 1
    | none => 1
  if ¬ o.dispatcherOk then
    (.error .dispatcherError,
      { s3 with programs := eraseKey s3.programs id,
                persisted := eraseKey s3.persisted id })
  else
    -- Dispatcher::new fills kernel info of the not-yet-attached
    -- extensions; the copied-back list re-inserts every program of
    -- the key.
    let programs' := programs.map (fun kv =>
      (kv.1, if kv.2.metadata.attached then kv.2 else kv.2.setKernelInfo (o.kinfo kv.1)))
    let s4 : BpfState :=
      { s3 with dispatchers := upsertDispatcher s3.dispatchers did (DispatcherState.mk next_revision) }
    let s5 : BpfState := { s4 with programs := upsertAll s4.programs programs' }
    match s5.programs.lookup id with
    | some q =>
        let q1 := q.setAttached
        (.ok id, { s5 with programs := upsert s5.programs id q1,
                           persisted := upsert s5.persisted id q1 })
    | none => (.ok id, s5)

/-- `BpfManager::add_multi_attach_program`: verify the section name, count
the programs on the dispatcher key (fail with `TooManyPrograms` at ≥ 10),
then hand over to the dispatcher-rebuilding core. -/
def addMultiAttachProgram (o : KernelOracle) (s : BpfState) (p : Program) (id : Nat) :
    Except BpfdError Nat × BpfState :=
  if ¬ o.bytecodeOk then (.error .bytecodeError, s)
  else if ¬ o.loadOk then (.error .bpfLoadError, s)
  else if ¬ o.sectionOk then (.error (.sectionNameNotValid p.data.section_name), s)
  else
    let next_available_id :=
      (s.programs.filter (fun kv => matchesKey p.kind p.if_index p.direction kv.2)).length
    if next_available_id ≥ 10 then (.error .tooManyPrograms, s)
    else
      match p.dispatcherId with
      | none => (.error .dispatcherNotRequired, s)
      | some did => addMultiCore o s p id did

/-- Rendering of a `ProbeType` for the probe-mismatch error message. -/
def ProbeType.str : ProbeType → String
  | .kprobe => "kprobe"
  | .kretprobe => "kretprobe"
  | .uprobe => "uprobe"
  | .uretprobe => "uretprobe"

/-- `BpfManager::add_single_attach_program`: load the bytecode with global
data, extract the program by section name, then per kind: validate the
attach point / probe kind / kretprobe offset, persist the record, insert
into the registry, attach, pin the link and pin the program, running the
source's compensating deletes exactly where the source runs them (attach
failure and program-pin failure have cleanup closures; link-pin failure
propagates with `?` and has none). -/
def addSingleAttachProgram (o : KernelOracle) (s : BpfState) (p : Program) (id : Nat) :
    Except BpfdError Nat × BpfState :=
  if ¬ o.bytecodeOk then (.error .bytecodeError, s)
  else if ¬ o.loadOk then (.error .bpfLoadError, s)
  else if ¬ o.sectionOk then (.error (.sectionNameNotValid p.data.section_name), s)
  else
    match p with
    | .tracepoint tp =>
        let parts := tp.info.tracepoint.splitOn "/"
        if parts.length ≠ 2 then (.error (.invalidAttach tp.info.tracepoint), s)
        else if ¬ o.progLoadOk then (.error .bpfProgramError, s)
        else
          let p1 := (Program.tracepoint tp).setKernelInfo (o.kinfo id)
          let s1 := { s with persisted := upsert s.persisted id p1,
                             programs := upsert s.programs id p1 }
          if ¬ o.attachOk then
            (.error .bpfProgramError,
              { s1 with programs := eraseKey s1.programs id,
                        persisted := eraseKey s1.persisted id })
          else if ¬ o.pinLinkOk then (.error .unableToPinLink, s1)
          else if ¬ o.pinProgOk then
            (.error .unableToPinProgram,
              { s1 with programs := eraseKey s1.programs id,
                        persisted := eraseKey s1.persisted id })
          else (.ok id, s1)
    | .kprobe kp =>
        let requested : ProbeType := if kp.info.retprobe then .kretprobe else .kprobe
        if requested = .kretprobe ∧ kp.info.offset ≠ 0 then
          (.error (.error ("offset not allowed for " ++ ProbeType.kretprobe.str)), s)
        else if ¬ o.progLoadOk then (.error .bpfProgramError, s)
        else if requested ≠ o.loadedProbeType then
          (.error (.error ("expected " ++ requested.str ++ ", loaded program is " ++
            o.loadedProbeType.str)), s)
        else
          let p1 := (Program.kprobe kp).setKernelInfo (o.kinfo id)
          let s1 := { s with persisted := upsert s.persisted id p1 }
          if ¬ o.attachOk then
            (.error .bpfProgramError, { s1 with persisted := eraseKey s1.persisted id })
          else
            let s2 := { s1 with programs := upsert s1.programs id p1 }
            if ¬ o.pinLinkOk then (.error .unableToPinLink, s2)
            else if ¬ o.pinProgOk then
              (.error .unableToPinProgram,
                { s2 with programs := eraseKey s2.programs id,
                          persisted := eraseKey s2.persisted id })
            else (.ok id, s2)
    | .uprobe up =>
        let requested : ProbeType := if up.info.retprobe then .uretprobe else .uprobe
        if ¬ o.progLoadOk then (.error .bpfProgramError, s)
        else if requested ≠ o.loadedProbeType then
          (.error (.error ("expected " ++ requested.str ++ ", loaded program is " ++
            o.loadedProbeType.str)), s)
        else
          let p1 := (Program.uprobe up).setKernelInfo (o.kinfo id)
          let s1 := { s with persisted := upsert s.persisted id p1 }
          if ¬ o.attachOk then
            (.error .bpfProgramError, { s1 with persisted := eraseKey s1.persisted id })
          else
            let s2 := { s1 with programs := upsert s1.programs id p1 }
            if ¬ o.pinLinkOk then (.error .unableToPinLink, s2)
            else if ¬ o.pinProgOk then
              (.error .unableToPinProgram,
                { s2 with programs := eraseKey s2.programs id,
                          persisted := eraseKey s2.persisted id })
            else (.ok id, s2)
    | _ => (.error (.error "not a supported single attach program"), s)

/-- The body of `BpfManager::add_program` once the uuid has been settled:
resolve the map pin path, run the per-kind add, then commit the map group
on success or clean the prepared pin directory on failure. -/
def addProgramWithId (o : KernelOracle) (s : BpfState) (p : Program) (id : Nat) :
    Except BpfdError Nat × BpfState :=
  match manageMapPinPath s id p.data.map_owner_uuid with
  | .error e => (.error e, s)
  | .ok (map_pin_path, s1) =>
      let (result, s2) :=
        match p with
        | .xdp _ | .tc _ => addMultiAttachProgram o s1 p id
        | _ => addSingleAttachProgram o s1 p id
      match result with
      | .ok r =>
          match saveMap s2 id p.data.map_owner_uuid map_pin_path with
          | .ok s3 => (.ok r, s3)
          | .error e => (.error e, s2)
      | .error e => (.error e, cleanupMapPinPath s2 id p.data.map_owner_uuid)

/-- `BpfManager::add_program`: use the caller's uuid (failing with
`PassedUUIDInUse` when it is already registered) or generate a fresh one,
then run `addProgramWithId`. -/
def addProgram (o : KernelOracle) (s : BpfState) (p : Program) (idArg : Option Nat) :
    Except BpfdError Nat × BpfState :=
  match idArg with
  | some id =>
      if (s.programs.lookup id).isSome then (.error (.passedUUIDInUse id), s)
      else addProgramWithId o s p id
  | none => addProgramWithId o s p o.newUuid

/-- `BpfManager::remove_multi_attach_program`: count the survivors on the
key; with none left delete the old dispatcher outright, otherwise re-sort
and rebuild a new dispatcher revision from the survivors. -/
def removeMultiAttachProgram (o : KernelOracle) (s : BpfState) (p : Program) :
    Except BpfdError Unit × BpfState :=
  let next_available_id :=
    (s.programs.filter (fun kv => matchesKey p.kind p.if_index p.direction kv.2)).length
  match p.dispatcherId with
  | none => (.error .dispatcherNotRequired, s)
  | some did =>
    let old_dispatcher := s.dispatchers.lookup did
    let s1 := { s with dispatchers := eraseDispatcher s.dispatchers did }
    match old_dispatcher, next_available_id with
    | some _, 0 => (.ok (), s1)
    | _, _ =>
      let s2 := sortPrograms s1 p.kind p.if_index p.direction
      let next_revision := match old_dispatcher with
        | some old => old.revision + 1
        | none => 1
      if o.dispatcherOk then
        (.ok (), { s2 with dispatchers :=
                     upsertDispatcher s2.dispatchers did (DispatcherState.mk next_revision) })
      else (.error .dispatcherError, s2)

/-- `BpfManager::remove_program`: authorise the requester, run the
map-safety pre-check (`is_map_safe_to_delete`), then remove the program
from the registry, delete its persisted record, tear down/rebuild the
dispatcher for multi-attach kinds and release the map group. -/
def removeProgram (o : KernelOracle) (s : BpfState) (id : Nat) (requester : String) :
    Except BpfdError Unit × BpfState :=
  match s.programs.lookup id with
  | none => (.error .invalidID, s)
  | some prog =>
      if ¬ (prog.owner = requester ∨ requester = SUPERUSER) then (.error .notAuthorized, s)
      else if ¬ isMapSafeToDelete s id prog.data.map_owner_uuid then
        (.error (.error "map being used by other eBPF program"), s)
      else
        let map_owner_uuid := prog.data.map_owner_uuid
        let s1 := { s with programs := eraseKey s.programs id,
                           persisted := eraseKey s.persisted id }
        match prog with
        | .xdp _ | .tc _ =>
            match removeMultiAttachProgram o s1 prog with
            | (.error e, s2) => (.error e, s2)
            | (.ok _, s2) =>
                match deleteMap s2 id map_owner_uuid with
                | .ok s3 => (.ok (), s3)
                | .error e => (.error e, s2)
        | _ =>
            match deleteMap s1 id map_owner_uuid with
            | .ok s3 => (.ok (), s3)
            | .error e => (.error e, s1)

/-! ## TC dispatcher module (`multiprog/tc.rs`) -/

/-- `DEFAULT_PRIORITY` in tc.rs: the priority baked into every dispatcher
slot. -/
def DEFAULT_PRIORITY : Nat := 50

/-- `TC_DISPATCHER_PRIORITY` in tc.rs. -/
def TC_DISPATCHER_PRIORITY : Nat := 50

/-- Modelled from the spec: `TcProceedOn::mask()` (command.rs); the
proceed-on set is rendered as a bitmask of return codes. -/
def proceedOnMask (actions : List Nat) : Nat :=
  actions.foldl (fun acc a => acc ||| (1 <<< a)) 0

/-- `TcDispatcherConfig` (dispatcher_config.rs) as filled in by
`TcDispatcher::new`. -/
structure TcDispatcherConfig where
  num_progs_enabled : Nat
  chain_call_actions : List Nat
  run_prios : List Nat
  deriving DecidableEq, Repr

/-- The config construction of `TcDispatcher::new` (tc.rs lines 60–76):
`chain_call_actions[pos] = proceed_on.mask()` for every extension at its
`current_position`, `run_prios = [DEFAULT_PRIORITY; 10]`, and
`num_progs_enabled = extensions.len()`.  The source unwraps
`current_position`; the model reads it with default 0 and the theorems
assume every position is populated. -/
def buildTcDispatcherConfig (extensions : List (Nat × TcProg)) : TcDispatcherConfig :=
  { num_progs_enabled := extensions.length
    chain_call_actions :=
      extensions.foldl
        (fun arr kv => arr.set (kv.2.info.current_position.getD 0)
          (proceedOnMask kv.2.info.proceed_on))
        (List.replicate 10 0)
    run_prios := List.replicate 10 DEFAULT_PRIORITY }

/-- Modelled from the spec: per-direction run-time directory constants of
`bpfd_api::util::directories` used by tc.rs (`RTDIR_TC_INGRESS_DISPATCHER`
/ `RTDIR_TC_EGRESS_DISPATCHER`). -/
def tcDispatcherStateDir : Direction → String
  | .ingress => "/run/bpfd/dispatchers/tc-ingress"
  | .egress => "/run/bpfd/dispatchers/tc-egress"

/-- Modelled from the spec: `RTDIR_FS_TC_INGRESS` / `RTDIR_FS_TC_EGRESS`. -/
def tcFsDir : Direction → String
  | .ingress => "/run/bpfd/fs/tc-ingress"
  | .egress => "/run/bpfd/fs/tc-egress"

/-- The persisted/in-memory `TcDispatcher` record (tc.rs). -/
structure TcDispatcherRec where
  revision : Nat
  if_index : Nat
  if_name : String
  direction : Direction
  priority : Nat
  handle : Option Nat
  deriving DecidableEq, Repr

/-- The per-key state file `<dir>/<if_index>_<revision>` written by
`TcDispatcher::save` and removed by `TcDispatcher::delete`. -/
def tcStateFilePath (d : TcDispatcherRec) : String :=
  tcDispatcherStateDir d.direction ++ "/" ++ toString d.if_index ++ "_" ++ toString d.revision

/-- The revision directory `<fsdir>/dispatcher_<if_index>_<revision>`
holding the pinned per-slot links. -/
def tcRevisionDirPath (d : TcDispatcherRec) : String :=
  tcFsDir d.direction ++ "/dispatcher_" ++ toString d.if_index ++ "_" ++ toString d.revision

/-- The observable effects of `TcDispatcher::delete`. -/
structure TcDeleteEffects where
  removedStateFile : String
  removedRevisionDir : String
  detachAttempted : Bool
  deriving DecidableEq, Repr

/-- `TcDispatcher::delete(full)`: always remove the per-key state file and
the revision's pin directory; only a *full* delete additionally detaches
the dispatcher from the interface (when a kernel handle is recorded). -/
def TcDispatcherRec.delete (d : TcDispatcherRec) (full : Bool) : TcDeleteEffects :=
  { removedStateFile := tcStateFilePath d
    removedRevisionDir := tcRevisionDirPath d
    detachAttempted := full && d.handle.isSome }

/-- The old-dispatcher handling at the end of `TcDispatcher::attach`
(tc.rs lines 148–158): once the new dispatcher has been attached and
obtained `newHandle`, an old TC dispatcher is deleted *fully* (i.e.
detached) only when its recorded handle differs from the new handle; when
the kernel reassigned the same handle, only the filesystem and
persistence traces are removed. -/
def tcAttachOldCleanup (newHandle : Nat) (old : Option TcDispatcherRec) :
    Option TcDeleteEffects :=
  match old with
  | some d => some (d.delete (decide (d.handle ≠ some newHandle)))
  | none => none

/-- The uuid argument of `add_program` is either absent or names a uuid
that is not currently registered (otherwise the call fails trivially with
`PassedUUIDInUse` before the behaviour under scrutiny is reached). -/
def idFree (s : BpfState) : Option Nat → Bool
  | none => true
  | some i => (s.programs.lookup i).isNone

/-- The map-owner reference of the program either is absent or names an
existing map group (so that `manage_map_pin_path` succeeds). -/
def mapOwnerOk (s : BpfState) (p : Program) : Bool :=
  match p.data.map_owner_uuid with
  | none => true
  | some x => (s.maps.lookup x).isSome

/-- Concrete oracle in which every kernel interaction succeeds. -/
def okOracle : KernelOracle :=
  { bytecodeOk := true, loadOk := true, sectionOk := true, progLoadOk := true,
    loadedProbeType := .kretprobe, attachOk := true, pinLinkOk := true,
    pinProgOk := true, dispatcherOk := true, kinfo := fun n => ⟨n⟩, newUuid := 7 }

/-- Concrete kretprobe request with offset 100 (scenario 5 of the spec). -/
def c9Prog : KprobeProg :=
  ⟨⟨"", "", [], none, "u", none⟩, ⟨"do_sys_open", 100, true, none⟩⟩

/-- Oracle under which every interaction succeeds and a kprobe load
reports kind kprobe. -/
def kprobeOracle : KernelOracle := { okOracle with loadedProbeType := .kprobe }

/-- Oracle in which everything succeeds except pinning the attach link. -/
def pinLinkFailOracle : KernelOracle :=
  { okOracle with loadedProbeType := .kprobe, pinLinkOk := false }

/-- Concrete plain kprobe request (offset 0, no retprobe). -/
def c7Kp : KprobeProg := ⟨⟨"", "", [], none, "u", none⟩, ⟨"f", 0, false, none⟩⟩

/-- The same request as a `Program`. -/
def c7Prog : Program := .kprobe c7Kp

/-- Concrete TC ingress program of priority 10 used twice (under ids 2 and
1) for the C1 tiebreak refutation. -/
def c1ProgA : Program :=
  .tc ⟨⟨"", "", [], none, "u", none⟩, ⟨7, none, ⟨10, "s", false⟩, [], "eth0", .ingress⟩⟩

/-- A third TC ingress program on the same key, priority 20, whose
successful add re-sorts the key while programs 1 and 2 carry *identical*
metadata (both `(10, "s", attached = true)`). -/
def c1ProgB : Program :=
  .tc ⟨⟨"", "", [], none, "u", none⟩, ⟨7, none, ⟨20, "s", false⟩, [], "eth0", .ingress⟩⟩

/-- A priority-5 TC ingress program whose add is made to fail at the
dispatcher-rebuild step, leaving the survivor's re-sorted position
behind. -/
def c1ProgLow : Program :=
  .tc ⟨⟨"", "", [], none, "u", none⟩, ⟨7, none, ⟨5, "s", false⟩, [], "eth0", .ingress⟩⟩

/-- Oracle whose `Dispatcher::new` fails (everything before it succeeds). -/
def dispFailOracle : KernelOracle := { okOracle with dispatcherOk := false }

/-- State after loading `c1ProgA` under id 2. -/
def c1sA1 : BpfState := (addProgram okOracle initState c1ProgA (some 2)).2

/-- …then `c1ProgA` under id 1. -/
def c1sA2 : BpfState := (addProgram okOracle c1sA1 c1ProgA (some 1)).2

/-- …then `c1ProgB` under id 3 (three successful adds). -/
def c1sA3 : BpfState := (addProgram okOracle c1sA2 c1ProgB (some 3)).2

/-- State after the accepted-but-failed add of `c1ProgLow` under id 1 on
top of `c1sA1`. -/
def c1sB : BpfState := (addProgram dispFailOracle c1sA1 c1ProgLow (some 1)).2



/-- Concrete map-owner program for the C4 witness. -/
def c4Prog : Program :=
  .tracepoint ⟨⟨"", "", [], none, "alice", none⟩, ⟨"sched/sched_switch"⟩⟩

/-- Concrete state for the C4 witness: program 1 owns a map group also
used by program 2. -/
def c4State : BpfState :=
  { programs := [(1, c4Prog)],
    maps := [(1, ⟨"/run/bpfd/fs/maps/1", [1, 2]⟩)],
    dispatchers := [],
    persisted := [(1, c4Prog)],
    mapDirs := ["/run/bpfd/fs/maps/1"] }

/-- Concrete old TC dispatcher for the C6 witness. -/
def c6Dispatcher : TcDispatcherRec :=
  ⟨3, 7, "eth0", .ingress, 50, some 11⟩

/-- States of the manager reachable by any sequence of accepted commands
(loads and unloads, under arbitrary environment behaviour), starting from
the empty state of `BpfManager::new`. -/
inductive Reachable : BpfState → Prop
  | init : Reachable initState
  | add (o : KernelOracle) (p : Program) (idArg : Option Nat) {s : BpfState} :
      Reachable s → Reachable (addProgram o s p idArg).2
  | remove (o : KernelOracle) (id : Nat) (req : String) {s : BpfState} :
      Reachable s → Reachable (removeProgram o s id req).2

/-- A TC ingress program on interface 7 used to fill the key for the C2
witness (`n` doubles as uuid, position and priority). -/
def c2Prog (n : Nat) : Program :=
  .tc ⟨⟨"", "", [], none, "u", none⟩, ⟨7, some n, ⟨(n : Int), "s", true⟩, [], "eth0", .ingress⟩⟩

/-- State with 10 TC ingress programs on interface 7. -/
def c2State : BpfState :=
  { programs := (List.range 10).map (fun n => (n, c2Prog n)),
    maps := [],
    dispatchers := [(.tcId 7 .ingress, ⟨5⟩)],
    persisted := (List.range 10).map (fun n => (n, c2Prog n)),
    mapDirs := [] }

/-- The 11th TC ingress program on the same key. -/
def c2New : Program :=
  .tc ⟨⟨"", "", [], none, "u", none⟩, ⟨7, none, ⟨99, "s", false⟩, [], "eth0", .ingress⟩⟩

/-- The position each extension's proceed-on mask is written to. -/
def extSlot (kv : Nat × TcProg) : Nat := kv.2.info.current_position.getD 0

/-- Concrete single-program extension list for the C5 refutation: the
program sits at position 0 with priority 10. -/
def c5Ext : List (Nat × TcProg) :=
  [(1, ⟨⟨"", "", [], none, "u", none⟩,
    ⟨7, some 0, ⟨10, "sec", false⟩, [0, 30], "eth0", .ingress⟩⟩)]

end Bpfd

/-- C10: `get_map_index(i, Some x) = (false, x)`, `get_map_index(i, None) =
(true, i)`; consequently `calc_map_pin_path(i, Some x)` yields exactly the
pin path of `calc_map_pin_path(x, None)`, and the owner flag is true iff
`map_owner_uuid` is unset. -/
theorem C10_map_index_pin_path (i x : Nat) :
    Bpfd.getMapIndex i (some x) = (false, x) ∧
    Bpfd.getMapIndex i none = (true, i) ∧
    (Bpfd.calcMapPinPath i (some x)).2 = (Bpfd.calcMapPinPath x none).2 ∧
    (∀ mo : Option Nat, (Bpfd.getMapIndex i mo).1 = mo.isNone) := by
  refine ⟨rfl, rfl, rfl, ?_⟩
  intro mo
  cases mo <;> rfl

namespace Bpfd

/-- C8: an `add_program` call for a program with `map_owner_id = Some x`
while no map group `x` exists fails with the map-group-missing error
before any kernel interaction (the result is the same for *every* kernel
oracle) and leaves the entire state unchanged. -/
theorem C8_missing_map_group (o : KernelOracle) (s : BpfState) (p : Program)
    (idArg : Option Nat) (x : Nat)
    (hmo : p.data.map_owner_uuid = some x)
    (hx : s.maps.lookup x = none)
    (hid : idFree s idArg = true) :
    addProgram o s p idArg = (.error (.error "map_owner_uuid does not exists"), s) := by
  have hbody : addProgramWithId o s p (match idArg with | some i => i | none => o.newUuid) =
      (.error (.error "map_owner_uuid does not exists"), s) := by
    simp [addProgramWithId, manageMapPinPath, calcMapPinPath, getMapIndex, hmo, hx]
  cases idArg with
  | none => simpa [addProgram] using hbody
  | some i =>
      simp only [idFree, Option.isNone_iff_eq_none] at hid
      simpa [addProgram, hid] using hbody

/-- `cleanup_map_pin_path` touches at most the map pin directories. -/
theorem cleanupMapPinPath_fields (s : BpfState) (id : Nat) (mo : Option Nat) :
    (cleanupMapPinPath s id mo).programs = s.programs ∧
    (cleanupMapPinPath s id mo).persisted = s.persisted ∧
    (cleanupMapPinPath s id mo).maps = s.maps ∧
    (cleanupMapPinPath s id mo).dispatchers = s.dispatchers := by
  cases mo <;> simp [cleanupMapPinPath, calcMapPinPath, getMapIndex]

/-- When the map-owner reference is in order, `manage_map_pin_path`
succeeds and touches at most the map pin directories. -/
theorem manageMapPinPath_ok (s : BpfState) (id : Nat) (p : Program)
    (hmo : mapOwnerOk s p = true) :
    ∃ path s1, manageMapPinPath s id p.data.map_owner_uuid = .ok (path, s1) ∧
      s1.programs = s.programs ∧ s1.persisted = s.persisted ∧
      s1.maps = s.maps ∧ s1.dispatchers = s.dispatchers := by
  unfold mapOwnerOk at hmo
  rcases h : p.data.map_owner_uuid with _ | x
  · refine ⟨RTDIR_FS_MAPS ++ "/" ++ toString id,
      { s with mapDirs := insertDir s.mapDirs (RTDIR_FS_MAPS ++ "/" ++ toString id) },
      ?_, rfl, rfl, rfl, rfl⟩
    simp [manageMapPinPath, calcMapPinPath, getMapIndex, h]
  · rw [h] at hmo
    simp only [] at hmo
    refine ⟨RTDIR_FS_MAPS ++ "/" ++ toString x, s, ?_, rfl, rfl, rfl, rfl⟩
    simp [manageMapPinPath, calcMapPinPath, getMapIndex, h, hmo]

/-- `add_program`, once a failing per-kind add is fixed: the error
propagates and the prepared pin directory is cleaned up. -/
theorem addProgramWithId_kprobe_error (o : KernelOracle) (s : BpfState) (kp : KprobeProg)
    (id : Nat) (path : String) (s1 : BpfState) (e : BpfdError) (s2 : BpfState)
    (hmanage : manageMapPinPath s id (Program.kprobe kp).data.map_owner_uuid = .ok (path, s1))
    (hsingle : addSingleAttachProgram o s1 (.kprobe kp) id = (.error e, s2)) :
    addProgramWithId o s (.kprobe kp) id =
      (.error e, cleanupMapPinPath s2 id (Program.kprobe kp).data.map_owner_uuid) := by
  simp only [addProgramWithId, hmanage, hsingle]

/-- The helper of C9 at the level of `addProgramWithId` (uuid already
settled). -/
theorem C9_aux (o : KernelOracle) (s : BpfState) (kp : KprobeProg) (id : Nat)
    (hret : kp.info.retprobe = true)
    (hoff : kp.info.offset ≠ 0)
    (hb : o.bytecodeOk = true) (hl : o.loadOk = true) (hsec : o.sectionOk = true)
    (hmo : mapOwnerOk s (.kprobe kp) = true) :
    (addProgramWithId o s (.kprobe kp) id).1 =
      .error (.error "offset not allowed for kretprobe") ∧
    (addProgramWithId o s (.kprobe kp) id).2.programs = s.programs ∧
    (addProgramWithId o s (.kprobe kp) id).2.persisted = s.persisted ∧
    (addProgramWithId o s (.kprobe kp) id).2.maps = s.maps := by
  obtain ⟨path, s1, hmanage, h1, h2, h3, h4⟩ := manageMapPinPath_ok s id (.kprobe kp) hmo
  have hsingle : addSingleAttachProgram o s1 (.kprobe kp) id =
      (.error (.error ("offset not allowed for " ++ ProbeType.kretprobe.str)), s1) := by
    simp [addSingleAttachProgram, hb, hl, hsec, hret, hoff]
  have hbody := addProgramWithId_kprobe_error o s kp id path s1 _ s1 hmanage hsingle
  obtain ⟨c1, c2, c3, c4⟩ :=
    cleanupMapPinPath_fields s1 id (Program.kprobe kp).data.map_owner_uuid
  rw [hbody]
  exact ⟨rfl, by rw [c1, h1], by rw [c2, h2], by rw [c3, h3]⟩

/-- C9: a kprobe load request with `retprobe = true` and a nonzero offset
fails with the kretprobe-offset error (provided the environment lets the
call reach the check, i.e. bytecode and section resolve), and neither the
registry, the persisted records, nor the map groups are touched. -/
theorem C9_kretprobe_offset (o : KernelOracle) (s : BpfState) (kp : KprobeProg)
    (idArg : Option Nat)
    (hret : kp.info.retprobe = true)
    (hoff : kp.info.offset ≠ 0)
    (hb : o.bytecodeOk = true) (hl : o.loadOk = true) (hsec : o.sectionOk = true)
    (hid : idFree s idArg = true)
    (hmo : mapOwnerOk s (.kprobe kp) = true) :
    (addProgram o s (.kprobe kp) idArg).1 =
      .error (.error "offset not allowed for kretprobe") ∧
    (addProgram o s (.kprobe kp) idArg).2.programs = s.programs ∧
    (addProgram o s (.kprobe kp) idArg).2.persisted = s.persisted ∧
    (addProgram o s (.kprobe kp) idArg).2.maps = s.maps := by
  cases idArg with
  | none =>
      simpa [addProgram] using C9_aux o s kp o.newUuid hret hoff hb hl hsec hmo
  | some i =>
      have hid' : (s.programs.lookup i).isSome = false := by
        simp only [idFree, Option.isNone_iff_eq_none] at hid
        simp [hid]
      simpa [addProgram, hid'] using C9_aux o s kp i hret hoff hb hl hsec hmo

/-- C9 witness. -/
theorem C9_kretprobe_offset_witness :
    (addProgram okOracle initState (.kprobe c9Prog) none).1 =
      .error (.error "offset not allowed for kretprobe") ∧
    (addProgram okOracle initState (.kprobe c9Prog) none).2.programs = initState.programs :=
  ⟨(C9_kretprobe_offset okOracle initState c9Prog none rfl (by decide) rfl rfl rfl rfl rfl).1,
   (C9_kretprobe_offset okOracle initState c9Prog none rfl (by decide) rfl rfl rfl rfl rfl).2.1⟩

/-- C4: unloading a program that owns a map group whose `used_by` has
more than one member fails with the map-in-use error and changes nothing;
and the pre-check `is_map_safe_to_delete` returns `false` *exactly* in
that situation — in particular it always passes for a program whose
`map_owner_id` is set (a consumer). -/
theorem C4_map_in_use (o : KernelOracle) (s : BpfState) (id : Nat) (requester : String)
    (p : Program) (m : BpfMap)
    (hp : s.programs.lookup id = some p)
    (hauth : p.owner = requester ∨ requester = SUPERUSER)
    (hown : p.data.map_owner_uuid = none)
    (hm : s.maps.lookup id = some m)
    (hlen : 1 < m.used_by.length) :
    removeProgram o s id requester =
      (.error (.error "map being used by other eBPF program"), s) ∧
    (∀ (id2 x : Nat), isMapSafeToDelete s id2 (some x) = true) ∧
    (∀ (id2 : Nat) (mo : Option Nat),
      isMapSafeToDelete s id2 mo = false ↔
        mo = none ∧ ∃ m2, s.maps.lookup id2 = some m2 ∧ 1 < m2.used_by.length) := by
  have hsafe : isMapSafeToDelete s id p.data.map_owner_uuid = false := by
    simp [isMapSafeToDelete, getMapIndex, hown, hm, hlen]
  refine ⟨?_, ?_, ?_⟩
  · simp [removeProgram, hp, hsafe, hauth]
  · intro id2 x
    simp [isMapSafeToDelete, getMapIndex]
  · intro id2 mo
    cases mo with
    | none =>
        cases hl : s.maps.lookup id2 with
        | none => simp [isMapSafeToDelete, getMapIndex, hl]
        | some m2 => simp [isMapSafeToDelete, getMapIndex, hl]
    | some x => simp [isMapSafeToDelete, getMapIndex]

/-- C4 witness. -/
theorem C4_map_in_use_witness :
    removeProgram okOracle c4State 1 "alice" =
      (.error (.error "map being used by other eBPF program"), c4State) ∧
    isMapSafeToDelete c4State 2 (some 1) = true :=
  ⟨(C4_map_in_use okOracle c4State 1 "alice" c4Prog ⟨"/run/bpfd/fs/maps/1", [1, 2]⟩
      rfl (Or.inl rfl) rfl rfl (by decide)).1,
   (C4_map_in_use okOracle c4State 1 "alice" c4Prog ⟨"/run/bpfd/fs/maps/1", [1, 2]⟩
      rfl (Or.inl rfl) rfl rfl (by decide)).2.1 2 1⟩

/-- C6: during a TC reconcile with an old dispatcher present, the old
dispatcher is detached iff its recorded kernel handle differs from the
handle the new dispatcher obtained; with equal handles only the
filesystem/persistence traces go away, and in both cases the old
revision's state file and pin directory are removed. -/
theorem C6_tc_old_dispatcher_cleanup (d : TcDispatcherRec) (oldHandle newHandle : Nat)
    (hh : d.handle = some oldHandle) :
    ∃ eff, tcAttachOldCleanup newHandle (some d) = some eff ∧
      ((eff.detachAttempted = true) ↔ oldHandle ≠ newHandle) ∧
      eff.removedStateFile = tcStateFilePath d ∧
      eff.removedRevisionDir = tcRevisionDirPath d := by
  refine ⟨d.delete (decide (d.handle ≠ some newHandle)), rfl, ?_, rfl, rfl⟩
  simp [TcDispatcherRec.delete, hh]

/-- C6 witness. -/
theorem C6_tc_old_dispatcher_cleanup_witness :
    ∃ eff, tcAttachOldCleanup 12 (some c6Dispatcher) = some eff ∧
      ((eff.detachAttempted = true) ↔ (11 : Nat) ≠ 12) ∧
      eff.removedStateFile = tcStateFilePath c6Dispatcher ∧
      eff.removedRevisionDir = tcRevisionDirPath c6Dispatcher :=
  C6_tc_old_dispatcher_cleanup c6Dispatcher 11 12 rfl

/-! ### C1: position assignment by `sort_programs` -/

theorem charListLt_trans : ∀ {l1 l2 l3 : List Char}, charListLt l1 l2 = true →
    charListLt l2 l3 = true → charListLt l1 l3 = true
  | [], [], _, h1, _ => by simp [charListLt] at h1
  | [], _ :: _, [], _, h2 => by simp [charListLt] at h2
  | [], _ :: _, _ :: _, _, _ => rfl
  | _ :: _, [], _, h1, _ => by simp [charListLt] at h1
  | _ :: _, _ :: _, [], _, h2 => by simp [charListLt] at h2
  | a :: as, b :: bs, c :: cs, h1, h2 => by
      simp only [charListLt] at h1 h2 ⊢
      by_cases hab : a < b
      · by_cases hbc : b < c
        · simp [lt_trans hab hbc]
        · by_cases hcb : c < b
          · simp [hbc, hcb] at h2
          · have hbceq : b = c := le_antisymm (not_lt.mp hcb) (not_lt.mp hbc)
            subst hbceq
            simp [hab]
      · by_cases hba : b < a
        · simp [hab, hba] at h1
        · have habeq : a = b := le_antisymm (not_lt.mp hba) (not_lt.mp hab)
          subst habeq
          simp only [lt_irrefl] at h1
          simp at h1
          by_cases hac : a < c
          · simp [hac]
          · by_cases hca : c < a
            · simp [hac, hca] at h2
            · have haceq : a = c := le_antisymm (not_lt.mp hca) (not_lt.mp hac)
              subst haceq
              simp only [lt_irrefl] at h2 ⊢
              simp at h2 ⊢
              exact charListLt_trans h1 h2

theorem charListLt_eq_of_both_false : ∀ {l1 l2 : List Char}, charListLt l1 l2 = false →
    charListLt l2 l1 = false → l1 = l2
  | [], [], _, _ => rfl
  | [], _ :: _, h1, _ => by simp [charListLt] at h1
  | _ :: _, [], _, h2 => by simp [charListLt] at h2
  | a :: as, b :: bs, h1, h2 => by
      simp only [charListLt] at h1 h2
      by_cases hab : a < b
      · simp [hab] at h1
      · by_cases hba : b < a
        · simp [hba] at h2
        · have habeq : a = b := le_antisymm (not_lt.mp hba) (not_lt.mp hab)
          subst habeq
          simp only [lt_irrefl] at h1 h2
          simp at h1 h2
          rw [charListLt_eq_of_both_false h1 h2]

theorem strLt_trans {a b c : String} (h1 : strLt a b = true) (h2 : strLt b c = true) :
    strLt a c = true := charListLt_trans h1 h2

theorem strLt_eq_of_both_false {a b : String} (h1 : strLt a b = false)
    (h2 : strLt b a = false) : a = b := by
  cases a with
  | mk da =>
      cases b with
      | mk db => exact congrArg String.mk (charListLt_eq_of_both_false h1 h2)

/-- The modelled metadata comparison is total. -/
theorem metadataLe_total (a b : Metadata) : Metadata.le a b ∨ Metadata.le b a := by
  unfold Metadata.le
  rcases lt_trichotomy a.priority b.priority with hp | hp | hp
  · exact Or.inl (Or.inl hp)
  · by_cases hn : strLt a.name b.name = true
    · exact Or.inl (Or.inr ⟨hp, Or.inl hn⟩)
    · by_cases hn' : strLt b.name a.name = true
      · exact Or.inr (Or.inr ⟨hp.symm, Or.inl hn'⟩)
      · have hn1 : strLt a.name b.name = false := by simpa using hn
        have hn2 : strLt b.name a.name = false := by simpa using hn'
        have hne : a.name = b.name := strLt_eq_of_both_false hn1 hn2
        cases hb : a.attached
        · exact Or.inl (Or.inr ⟨hp, Or.inr ⟨hne, Or.inl rfl⟩⟩)
        · exact Or.inr (Or.inr ⟨hp.symm, Or.inr ⟨hne.symm, Or.inr rfl⟩⟩)
  · exact Or.inr (Or.inl hp)

/-- The modelled metadata comparison is transitive. -/
theorem metadataLe_trans {a b c : Metadata} (h1 : Metadata.le a b)
    (h2 : Metadata.le b c) : Metadata.le a c := by
  unfold Metadata.le at h1 h2 ⊢
  rcases h1 with hp1 | ⟨he1, hr1⟩
  · rcases h2 with hp2 | ⟨he2, _⟩
    · exact Or.inl (lt_trans hp1 hp2)
    · exact Or.inl (he2 ▸ hp1)
  · rcases h2 with hp2 | ⟨he2, hr2⟩
    · exact Or.inl (he1 ▸ hp2)
    · refine Or.inr ⟨he1.trans he2, ?_⟩
      rcases hr1 with hn1 | ⟨hne1, hb1⟩
      · rcases hr2 with hn2 | ⟨hne2, _⟩
        · exact Or.inl (strLt_trans hn1 hn2)
        · exact Or.inl (hne2 ▸ hn1)
      · rcases hr2 with hn2 | ⟨hne2, hb2⟩
        · exact Or.inl (by rw [hne1]; exact hn2)
        · refine Or.inr ⟨hne1.trans hne2, ?_⟩
          rcases hb1 with hb1 | hb1
          · exact Or.inl hb1
          · rcases hb2 with hb2 | hb2
            · rw [hb1] at hb2
              cases hb2
            · exact Or.inr hb2

/-- The primary key of the metadata comparison is the priority. -/
theorem metadataLe_priority {a b : Metadata} (h : Metadata.le a b) :
    a.priority ≤ b.priority := by
  rcases h with h | ⟨h, _⟩
  · exact le_of_lt h
  · exact le_of_eq h

theorem setPosition_kind (p : Program) (x : Option Nat) :
    (p.setPosition x).kind = p.kind := by
  cases p <;> rfl

theorem setPosition_if_index (p : Program) (x : Option Nat) :
    (p.setPosition x).if_index = p.if_index := by
  cases p <;> rfl

theorem setPosition_direction (p : Program) (x : Option Nat) :
    (p.setPosition x).direction = p.direction := by
  cases p <;> rfl

theorem setPosition_metadata (p : Program) (x : Option Nat) :
    (p.setPosition x).metadata = p.metadata := by
  cases p <;> rfl

theorem setPosition_priority (p : Program) (x : Option Nat) :
    (p.setPosition x).priority = p.priority := by
  unfold Program.priority
  rw [setPosition_metadata]

/-- Multi-attach programs (the only programs `sort_programs` positions)
really receive the assigned position. -/
theorem setPosition_position (p : Program) (x : Option Nat)
    (h : p.kind = .xdp ∨ p.kind = .tc) :
    (p.setPosition x).position = x := by
  cases p with
  | xdp q => rfl
  | tc q => rfl
  | tracepoint q => simp [Program.kind] at h
  | kprobe q => simp [Program.kind] at h
  | uprobe q => simp [Program.kind] at h

theorem matchesKey_setPosition (pt : ProgramType) (ifi : Option Nat) (dir : Option Direction)
    (p : Program) (x : Option Nat) :
    matchesKey pt ifi dir (p.setPosition x) = matchesKey pt ifi dir p := by
  unfold matchesKey
  rw [setPosition_kind, setPosition_if_index, setPosition_direction]

/-- The kind of a matching program is the key's kind. -/
theorem kind_of_matchesKey {pt : ProgramType} {ifi : Option Nat} {dir : Option Direction}
    {p : Program} (h : matchesKey pt ifi dir p = true) : p.kind = pt := by
  unfold matchesKey at h
  simp only [Bool.decide_and, Bool.and_eq_true, decide_eq_true_eq] at h
  exact h.1

theorem assignPositions_length (i : Nat) (l : List (Nat × Program)) :
    (assignPositions i l).length = l.length := by
  induction l generalizing i with
  | nil => rfl
  | cons a l ih => simp [assignPositions, ih]

theorem assignPositions_map_fst (i : Nat) (l : List (Nat × Program)) :
    (assignPositions i l).map Prod.fst = l.map Prod.fst := by
  induction l generalizing i with
  | nil => rfl
  | cons a l ih => cases a; simp [assignPositions, ih]

theorem assignPositions_get? (i : Nat) (l : List (Nat × Program)) (j : Nat) :
    (assignPositions i l).get? j =
      (l.get? j).map (fun kv => (kv.1, kv.2.setPosition (some (i + j)))) := by
  induction l generalizing i j with
  | nil => simp [assignPositions]
  | cons a l ih =>
      cases a with
      | mk k p =>
          cases j with
          | zero => simp [assignPositions]
          | succ j =>
              simp only [assignPositions, List.get?_cons_succ, ih (i + 1) j]
              have : i + 1 + j = i + (j + 1) := by omega
              rw [this]

/-- Every element of `assignPositions i l` comes from an element of `l`
at some index `j`, with position `i + j` assigned. -/
theorem mem_assignPositions {i : Nat} {l : List (Nat × Program)} {kv : Nat × Program}
    (h : kv ∈ assignPositions i l) :
    ∃ j q, l.get? j = some (kv.1, q) ∧ kv.2 = q.setPosition (some (i + j)) := by
  induction l generalizing i with
  | nil => cases h
  | cons a l ih =>
      cases a with
      | mk k p =>
          rcases List.mem_cons.mp h with rfl | h'
          · refine ⟨0, p, ?_, ?_⟩ <;> simp
          · obtain ⟨j, q, hget, hset⟩ := ih h'
            exact ⟨j + 1, q, by simpa using hget, by
              have : i + 1 + j = i + (j + 1) := by omega
              rw [← this]; exact hset⟩

/-- The positions handed out by `assignPositions i` are exactly
`i, i+1, …` in order (for multi-attach programs). -/
theorem assignPositions_map_position (i : Nat) (l : List (Nat × Program))
    (h : ∀ kv ∈ l, kv.2.kind = .xdp ∨ kv.2.kind = .tc) :
    (assignPositions i l).map (fun kv => kv.2.position) =
      (List.range' i l.length).map some := by
  induction l generalizing i with
  | nil => rfl
  | cons a l ih =>
      cases a with
      | mk k p =>
          have hp := h (k, p) (List.mem_cons_self _ _)
          have ht : ∀ kv ∈ l, kv.2.kind = .xdp ∨ kv.2.kind = .tc :=
            fun kv hkv => h kv (List.mem_cons_of_mem _ hkv)
          simp only [assignPositions, List.map_cons, List.length_cons, List.range'_succ]
          rw [ih (i + 1) ht, setPosition_position p (some i) hp]

/-- In a list with `Nodup` keys, membership determines the lookup. -/
theorem lookup_eq_some_of_mem_nodup {l : List (Nat × Program)} {k : Nat} {v : Program}
    (hnd : (l.map Prod.fst).Nodup) (hmem : (k, v) ∈ l) :
    l.lookup k = some v := by
  induction l with
  | nil => cases hmem
  | cons a l ih =>
      cases a with
      | mk k' v' =>
          simp only [List.map_cons, List.nodup_cons] at hnd
          rcases List.mem_cons.mp hmem with heq | h'
          · cases heq
            simp [List.lookup_cons]
          · have hk : k ≠ k' := by
              rintro rfl
              exact hnd.1 (List.mem_map_of_mem Prod.fst h')
            have hbeq : (k == k') = false := by simp [hk]
            simp only [List.lookup_cons, hbeq]
            exact ih hnd.2 h'

/-- A successful lookup is a membership. -/
theorem mem_of_lookup_eq_some {l : List (Nat × Program)} {k : Nat} {v : Program}
    (h : l.lookup k = some v) : (k, v) ∈ l := by
  induction l with
  | nil => simp at h
  | cons a l ih =>
      cases a with
      | mk k' v' =>
          by_cases hk : k = k'
          · subst hk
            simp only [List.lookup_cons_self, Option.some_inj] at h
            exact h ▸ List.mem_cons_self _ _
          · have hbeq : (k == k') = false := by simp [hk]
            simp only [List.lookup_cons, hbeq] at h
            exact List.mem_cons_of_mem _ (ih h)

/-- Two entries of a nodup-keyed list with the same key agree. -/
theorem eq_of_mem_mem_nodup {l : List (Nat × Program)} {k : Nat} {a b : Program}
    (hnd : (l.map Prod.fst).Nodup) (ha : (k, a) ∈ l) (hb : (k, b) ∈ l) : a = b := by
  have h1 := lookup_eq_some_of_mem_nodup hnd ha
  have h2 := lookup_eq_some_of_mem_nodup hnd hb
  rw [h1] at h2
  exact Option.some_inj.mp h2

/-- The keys of the sorted assignment are nodup when the registry's keys
are. -/
theorem sortedAssigned_keys_nodup (l : List (Nat × Program)) (pt : ProgramType)
    (ifi : Option Nat) (dir : Option Direction) (hnd : (l.map Prod.fst).Nodup) :
    ((sortedAssigned l pt ifi dir).map Prod.fst).Nodup := by
  unfold sortedAssigned
  rw [assignPositions_map_fst]
  have hperm : (List.insertionSort progLe
      (l.filter (fun kv => matchesKey pt ifi dir kv.2))).Perm
      (l.filter (fun kv => matchesKey pt ifi dir kv.2)) := List.perm_insertionSort _ _
  have hext : ((l.filter (fun kv => matchesKey pt ifi dir kv.2)).map Prod.fst).Nodup :=
    List.Nodup.sublist ((List.filter_sublist l).map Prod.fst) hnd
  exact ((hperm.map Prod.fst).nodup_iff).mpr hext

/-- Every entry of the sorted assignment matches the key and stems from a
registry entry of the key. -/
theorem mem_sortedAssigned_elim {l : List (Nat × Program)} {pt : ProgramType}
    {ifi : Option Nat} {dir : Option Direction} {kv : Nat × Program}
    (h : kv ∈ sortedAssigned l pt ifi dir) :
    ∃ j q, (List.insertionSort progLe
        (l.filter (fun kv => matchesKey pt ifi dir kv.2))).get? j = some (kv.1, q) ∧
      kv.2 = q.setPosition (some j) ∧ (kv.1, q) ∈ l ∧
      matchesKey pt ifi dir q = true := by
  obtain ⟨j, q, hget, hset⟩ := mem_assignPositions h
  have hqsorted : (kv.1, q) ∈ List.insertionSort progLe
      (l.filter (fun kv => matchesKey pt ifi dir kv.2)) := List.get?_mem hget
  have hqext : (kv.1, q) ∈ l.filter (fun kv => matchesKey pt ifi dir kv.2) :=
    (List.perm_insertionSort _ _).mem_iff.mp hqsorted
  have hfil := List.mem_filter.mp hqext
  exact ⟨j, q, hget, by simpa using hset, hfil.1, hfil.2⟩

/-- The write-back of `sort_programs` preserves the key predicate of every
registry entry. -/
theorem writeBack_matches (l : List (Nat × Program)) (pt : ProgramType) (ifi : Option Nat)
    (dir : Option Direction) (hnd : (l.map Prod.fst).Nodup) :
    ∀ kv ∈ l, matchesKey pt ifi dir (writeBack (sortedAssigned l pt ifi dir) kv).2 =
      matchesKey pt ifi dir kv.2 := by
  intro kv hkv
  unfold writeBack
  cases hlk : (sortedAssigned l pt ifi dir).lookup kv.1 with
  | none => rfl
  | some p' =>
      obtain ⟨j, q, hget, hset, hql, hqmatch⟩ :=
        mem_sortedAssigned_elim (mem_of_lookup_eq_some hlk)
      have hkv' : (kv.1, kv.2) ∈ l := by simpa using hkv
      have hq : q = kv.2 := eq_of_mem_mem_nodup hnd hql hkv'
      have hset' : p' = q.setPosition (some j) := hset
      show matchesKey pt ifi dir p' = matchesKey pt ifi dir kv.2
      rw [hset', matchesKey_setPosition, hq]

/-- Mapping the write-back over the sorted extension list reproduces the
assignment itself. -/
theorem writeBack_sorted_eq (l : List (Nat × Program)) (pt : ProgramType) (ifi : Option Nat)
    (dir : Option Direction) (hnd : (l.map Prod.fst).Nodup) :
    (List.insertionSort progLe (l.filter (fun kv => matchesKey pt ifi dir kv.2))).map
        (writeBack (sortedAssigned l pt ifi dir)) =
      sortedAssigned l pt ifi dir := by
  apply List.ext
  intro j
  rw [List.get?_map]
  cases hg : (List.insertionSort progLe
      (l.filter (fun kv => matchesKey pt ifi dir kv.2))).get? j with
  | none =>
      have ha : (sortedAssigned l pt ifi dir).get? j = none := by
        unfold sortedAssigned
        rw [assignPositions_get?, hg]
        rfl
      rw [ha]
      rfl
  | some kv =>
      cases kv with
      | mk k q =>
          have ha : (sortedAssigned l pt ifi dir).get? j =
              some (k, q.setPosition (some (0 + j))) := by
            unfold sortedAssigned
            rw [assignPositions_get?, hg]
            rfl
          have hlk : (sortedAssigned l pt ifi dir).lookup k =
              some (q.setPosition (some (0 + j))) :=
            lookup_eq_some_of_mem_nodup (sortedAssigned_keys_nodup l pt ifi dir hnd)
              (List.get?_mem ha)
          rw [ha]
          simp [writeBack, hlk]

/-- Bridge: after `sort_programs`, the registry entries of the key are (as
a multiset) exactly the sorted, position-assigned extension list. -/
theorem sortPrograms_filter_perm (s : BpfState) (pt : ProgramType) (ifi : Option Nat)
    (dir : Option Direction) (hnd : (s.programs.map Prod.fst).Nodup) :
    ((sortPrograms s pt ifi dir).programs.filter
        (fun kv => matchesKey pt ifi dir kv.2)).Perm
      (sortedAssigned s.programs pt ifi dir) := by
  have h1 : (sortPrograms s pt ifi dir).programs =
      s.programs.map (writeBack (sortedAssigned s.programs pt ifi dir)) := rfl
  rw [h1, List.filter_map]
  have h2 : s.programs.filter ((fun kv => matchesKey pt ifi dir kv.2) ∘
      writeBack (sortedAssigned s.programs pt ifi dir)) =
      s.programs.filter (fun kv => matchesKey pt ifi dir kv.2) :=
    List.filter_congr (fun kv hkv => by
      simpa [Function.comp] using writeBack_matches s.programs pt ifi dir hnd kv hkv)
  rw [h2]
  have h3 : ((s.programs.filter (fun kv => matchesKey pt ifi dir kv.2)).map
      (writeBack (sortedAssigned s.programs pt ifi dir))).Perm
      ((List.insertionSort progLe
        (s.programs.filter (fun kv => matchesKey pt ifi dir kv.2))).map
        (writeBack (sortedAssigned s.programs pt ifi dir))) :=
    (List.perm_insertionSort progLe
      (s.programs.filter (fun kv => matchesKey pt ifi dir kv.2))).symm.map
      (writeBack (sortedAssigned s.programs pt ifi dir))
  rw [writeBack_sorted_eq s.programs pt ifi dir hnd] at h3
  exact h3

/-- All programs of an XDP/TC key are themselves XDP or TC programs. -/
theorem kind_cases_of_matchesKey {pt : ProgramType} {ifi : Option Nat}
    {dir : Option Direction} {p : Program}
    (hmatch : matchesKey pt ifi dir p = true)
    (hkind : pt = .xdp ∨ pt = .tc) :
    p.kind = .xdp ∨ p.kind = .tc := by
  rcases hkind with h | h
  · exact Or.inl (h ▸ kind_of_matchesKey hmatch)
  · exact Or.inr (h ▸ kind_of_matchesKey hmatch)

/-- C1 amended: after the position reassignment that `sort_programs`
performs for a key (which is the last writer of positions after every
successful mutation of the key), the `current_position` values of the
key's programs form exactly the contiguous set `{0, …, count−1}`, ordered
by priority ascending — and in particular, strictly smaller priority
means strictly smaller position.  Ties in priority are resolved by the
metadata comparison and the registry's iteration order, not by program
id. -/
theorem C1_amended_positions (s : BpfState) (pt : ProgramType) (ifi : Option Nat)
    (dir : Option Direction)
    (hnd : (s.programs.map Prod.fst).Nodup)
    (hkind : pt = .xdp ∨ pt = .tc) :
    (((sortPrograms s pt ifi dir).programs.filter
        (fun kv => matchesKey pt ifi dir kv.2)).map (fun kv => kv.2.position)).Perm
      ((List.range ((sortPrograms s pt ifi dir).programs.filter
        (fun kv => matchesKey pt ifi dir kv.2)).length).map some) ∧
    (∀ kv1 ∈ (sortPrograms s pt ifi dir).programs.filter
        (fun kv => matchesKey pt ifi dir kv.2),
     ∀ kv2 ∈ (sortPrograms s pt ifi dir).programs.filter
        (fun kv => matchesKey pt ifi dir kv.2),
      kv1.2.priority < kv2.2.priority →
      ∃ i j, kv1.2.position = some i ∧ kv2.2.position = some j ∧ i < j) := by
  haveI : IsTotal (Nat × Program) progLe :=
    ⟨fun a b => metadataLe_total a.2.metadata b.2.metadata⟩
  haveI : IsTrans (Nat × Program) progLe :=
    ⟨fun _ _ _ h1 h2 => metadataLe_trans h1 h2⟩
  have hbridge := sortPrograms_filter_perm s pt ifi dir hnd
  have hkinds : ∀ kv ∈ List.insertionSort progLe
      (s.programs.filter (fun kv => matchesKey pt ifi dir kv.2)),
      kv.2.kind = .xdp ∨ kv.2.kind = .tc := by
    intro kv hkv
    have hext := (List.perm_insertionSort progLe _).mem_iff.mp hkv
    exact kind_cases_of_matchesKey (List.mem_filter.mp hext).2 hkind
  constructor
  · have hmap := hbridge.map (fun kv => kv.2.position)
    have hassigned_pos : (sortedAssigned s.programs pt ifi dir).map
        (fun kv => kv.2.position) =
        (List.range' 0 (List.insertionSort progLe
          (s.programs.filter (fun kv => matchesKey pt ifi dir kv.2))).length).map some := by
      unfold sortedAssigned
      exact assignPositions_map_position 0 _ hkinds
    have hlen : ((sortPrograms s pt ifi dir).programs.filter
        (fun kv => matchesKey pt ifi dir kv.2)).length =
        (List.insertionSort progLe
          (s.programs.filter (fun kv => matchesKey pt ifi dir kv.2))).length := by
      rw [hbridge.length_eq]
      unfold sortedAssigned
      rw [assignPositions_length]
    rw [hassigned_pos] at hmap
    rw [hlen, List.range_eq_range']
    exact hmap
  · intro kv1 h1 kv2 h2 hprio
    obtain ⟨j1, q1, hget1, hset1, _, hmatch1⟩ :=
      mem_sortedAssigned_elim (hbridge.mem_iff.mp h1)
    obtain ⟨j2, q2, hget2, hset2, _, hmatch2⟩ :=
      mem_sortedAssigned_elim (hbridge.mem_iff.mp h2)
    have hq1kind := kind_cases_of_matchesKey hmatch1 hkind
    have hq2kind := kind_cases_of_matchesKey hmatch2 hkind
    have hpos1 : kv1.2.position = some j1 := by
      rw [hset1, setPosition_position q1 _ hq1kind]
    have hpos2 : kv2.2.position = some j2 := by
      rw [hset2, setPosition_position q2 _ hq2kind]
    have hprio1 : kv1.2.priority = q1.priority := by rw [hset1, setPosition_priority]
    have hprio2 : kv2.2.priority = q2.priority := by rw [hset2, setPosition_priority]
    refine ⟨j1, j2, hpos1, hpos2, ?_⟩
    by_contra hcon
    push_neg at hcon
    have hsorted : List.Sorted progLe (List.insertionSort progLe
        (s.programs.filter (fun kv => matchesKey pt ifi dir kv.2))) :=
      List.sorted_insertionSort progLe _
    obtain ⟨hl1, he1⟩ := List.get?_eq_some.mp hget1
    obtain ⟨hl2, he2⟩ := List.get?_eq_some.mp hget2
    rcases Nat.lt_or_ge j2 j1 with hlt | hge
    · have hrel := hsorted.rel_get_of_lt (a := ⟨j2, hl2⟩) (b := ⟨j1, hl1⟩)
        (Fin.mk_lt_mk.mpr hlt)
      rw [he1, he2] at hrel
      have : q2.priority ≤ q1.priority := metadataLe_priority hrel
      rw [hprio1, hprio2] at hprio
      omega
    · have hj : j1 = j2 := by omega
      subst hj
      rw [hget1] at hget2
      have : q1 = q2 := by
        have := Option.some_inj.mp hget2
        exact congrArg Prod.snd this
      rw [hprio1, hprio2, this] at hprio
      omega

/-! ### C7: uniqueness of registry keys -/

theorem lookup_isSome_of_mem_keys {α : Type} {l : List (Nat × α)} {k : Nat}
    (h : k ∈ l.map Prod.fst) : (l.lookup k).isSome := by
  rw [List.lookup_isSome_iff]
  obtain ⟨p, hp, hfst⟩ := List.mem_map.mp h
  exact ⟨p, hp, by rw [← hfst]; exact beq_self_eq_true _⟩

theorem upsert_map_fst_of_mem {α : Type} (l : List (Nat × α)) (k : Nat) (v : α)
    (h : (l.lookup k).isSome) :
    (upsert l k v).map Prod.fst = l.map Prod.fst := by
  unfold upsert
  rw [if_pos h, List.map_map]
  apply List.map_congr_left
  intro kv _
  by_cases hk : kv.1 = k <;> simp [Function.comp, hk]

theorem upsert_keys_nodup {α : Type} (l : List (Nat × α)) (k : Nat) (v : α)
    (h : (l.map Prod.fst).Nodup) : ((upsert l k v).map Prod.fst).Nodup := by
  unfold upsert
  by_cases hlk : (l.lookup k).isSome
  · rw [if_pos hlk, List.map_map]
    have : l.map (Prod.fst ∘ fun kv => if kv.1 = k then (k, v) else kv) = l.map Prod.fst := by
      apply List.map_congr_left
      intro kv _
      by_cases hk : kv.1 = k <;> simp [Function.comp, hk]
    rw [this]
    exact h
  · rw [if_neg hlk, List.map_append]
    refine List.Nodup.append h (List.nodup_singleton k) ?_
    intro a ha hb
    simp only [List.map_cons, List.map_nil, List.mem_singleton] at hb
    subst hb
    exact hlk (lookup_isSome_of_mem_keys ha)

theorem eraseKey_keys_nodup {α : Type} (l : List (Nat × α)) (k : Nat)
    (h : (l.map Prod.fst).Nodup) : ((eraseKey l k).map Prod.fst).Nodup :=
  List.Nodup.sublist ((List.filter_sublist l).map Prod.fst) h

theorem sortPrograms_map_fst (s : BpfState) (pt : ProgramType) (ifi : Option Nat)
    (dir : Option Direction) :
    (sortPrograms s pt ifi dir).programs.map Prod.fst = s.programs.map Prod.fst := by
  show ((s.programs.map (writeBack (sortedAssigned s.programs pt ifi dir))).map Prod.fst) = _
  rw [List.map_map]
  apply List.map_congr_left
  intro kv _
  unfold writeBack
  cases hc : (sortedAssigned s.programs pt ifi dir).lookup kv.1 <;>
    simp [Function.comp, hc]

theorem upsertAll_keys_nodup (ps upd : List (Nat × Program))
    (h : (ps.map Prod.fst).Nodup) : ((upsertAll ps upd).map Prod.fst).Nodup := by
  induction upd generalizing ps with
  | nil => exact h
  | cons a t ih =>
      unfold upsertAll
      simp only [List.foldl_cons]
      exact ih (upsert ps a.1 a.2) (upsert_keys_nodup ps a.1 a.2 h)

theorem addMultiCore_keys_nodup (o : KernelOracle) (s : BpfState) (p : Program)
    (id : Nat) (did : DispatcherId) (h : (s.programs.map Prod.fst).Nodup) :
    (((addMultiCore o s p id did).2.programs).map Prod.fst).Nodup := by
  have hins : (((sortPrograms { s with programs := upsert s.programs id p }
      p.kind p.if_index p.direction).programs).map Prod.fst).Nodup := by
    rw [sortPrograms_map_fst]
    exact upsert_keys_nodup s.programs id p h
  by_cases hd : o.dispatcherOk
  · simp only [addMultiCore, hd, not_true_eq_false, if_false]
    split
    · exact upsert_keys_nodup _ _ _ (upsertAll_keys_nodup _ _ hins)
    · exact upsertAll_keys_nodup _ _ hins
  · simp only [addMultiCore, hd, not_false_eq_true, Bool.false_eq_true, if_true]
    exact eraseKey_keys_nodup _ _ hins

theorem addMultiAttachProgram_keys_nodup (o : KernelOracle) (s : BpfState) (p : Program)
    (id : Nat) (h : (s.programs.map Prod.fst).Nodup) :
    (((addMultiAttachProgram o s p id).2.programs).map Prod.fst).Nodup := by
  by_cases h1 : o.bytecodeOk
  case neg => simpa [addMultiAttachProgram, h1] using h
  by_cases h2 : o.loadOk
  case neg => simpa [addMultiAttachProgram, h1, h2] using h
  by_cases h3 : o.sectionOk
  case neg => simpa [addMultiAttachProgram, h1, h2, h3] using h
  by_cases h4 : 10 ≤ (s.programs.filter
      (fun kv => matchesKey p.kind p.if_index p.direction kv.2)).length
  case pos => simpa [addMultiAttachProgram, h1, h2, h3, h4] using h
  cases hdid : p.dispatcherId with
  | none => simpa [addMultiAttachProgram, h1, h2, h3, h4, hdid] using h
  | some did =>
      have : (addMultiAttachProgram o s p id) = addMultiCore o s p id did := by
        simp [addMultiAttachProgram, h1, h2, h3, h4, hdid]
      rw [this]
      exact addMultiCore_keys_nodup o s p id did h

theorem addSingleAttachProgram_keys_nodup (o : KernelOracle) (s : BpfState) (p : Program)
    (id : Nat) (h : (s.programs.map Prod.fst).Nodup) :
    (((addSingleAttachProgram o s p id).2.programs).map Prod.fst).Nodup := by
  by_cases h1 : o.bytecodeOk
  case neg => simpa [addSingleAttachProgram, h1] using h
  by_cases h2 : o.loadOk
  case neg => simpa [addSingleAttachProgram, h1, h2] using h
  by_cases h3 : o.sectionOk
  case neg => simpa [addSingleAttachProgram, h1, h2, h3] using h
  cases p with
  | tracepoint tp =>
      by_cases h4 : (tp.info.tracepoint.splitOn "/").length ≠ 2
      case pos => simpa [addSingleAttachProgram, h1, h2, h3, h4] using h
      by_cases h5 : o.progLoadOk
      case neg => simpa [addSingleAttachProgram, h1, h2, h3, h4, h5] using h
      by_cases h6 : o.attachOk
      case neg =>
        simp only [addSingleAttachProgram, h1, h2, h3, h4, h5, h6]
        simp
        exact eraseKey_keys_nodup _ _ (upsert_keys_nodup _ _ _ h)
      by_cases h7 : o.pinLinkOk
      case neg =>
        simp only [addSingleAttachProgram, h1, h2, h3, h4, h5, h6, h7]
        simp
        exact upsert_keys_nodup _ _ _ h
      by_cases h8 : o.pinProgOk
      case neg =>
        simp only [addSingleAttachProgram, h1, h2, h3, h4, h5, h6, h7, h8]
        simp
        exact eraseKey_keys_nodup _ _ (upsert_keys_nodup _ _ _ h)
      simp only [addSingleAttachProgram, h1, h2, h3, h4, h5, h6, h7, h8]
      simp
      exact upsert_keys_nodup _ _ _ h
  | kprobe kp =>
      cases hr : kp.info.retprobe with
      | true =>
          by_cases hoff : kp.info.offset = 0
          case neg => simpa [addSingleAttachProgram, h1, h2, h3, hr, hoff] using h
          by_cases h5 : o.progLoadOk
          case neg => simpa [addSingleAttachProgram, h1, h2, h3, hr, hoff, h5] using h
          by_cases h6 : o.loadedProbeType = ProbeType.kretprobe
          case neg =>
            have h6n : ¬(ProbeType.kretprobe = o.loadedProbeType) := fun hx => h6 hx.symm
            simpa [addSingleAttachProgram, h1, h2, h3, hr, hoff, h5, h6n] using h
          by_cases h7 : o.attachOk
          case neg =>
            simp only [addSingleAttachProgram]
            simp [h1, h2, h3, hr, hoff, h5, h6, h7]
            exact h
          by_cases h8 : o.pinLinkOk
          case neg =>
            simp only [addSingleAttachProgram]
            simp [h1, h2, h3, hr, hoff, h5, h6, h7, h8]
            exact upsert_keys_nodup _ _ _ h
          by_cases h9 : o.pinProgOk
          case neg =>
            simp only [addSingleAttachProgram]
            simp [h1, h2, h3, hr, hoff, h5, h6, h7, h8, h9]
            exact eraseKey_keys_nodup _ _ (upsert_keys_nodup _ _ _ h)
          simp only [addSingleAttachProgram]
          simp [h1, h2, h3, hr, hoff, h5, h6, h7, h8, h9]
          exact upsert_keys_nodup _ _ _ h
      | false =>
          by_cases h5 : o.progLoadOk
          case neg => simpa [addSingleAttachProgram, h1, h2, h3, hr, h5] using h
          by_cases h6 : o.loadedProbeType = ProbeType.kprobe
          case neg =>
            have h6n : ¬(ProbeType.kprobe = o.loadedProbeType) := fun hx => h6 hx.symm
            simpa [addSingleAttachProgram, h1, h2, h3, hr, h5, h6n] using h
          by_cases h7 : o.attachOk
          case neg =>
            simp only [addSingleAttachProgram]
            simp [h1, h2, h3, hr, h5, h6, h7]
            exact h
          by_cases h8 : o.pinLinkOk
          case neg =>
            simp only [addSingleAttachProgram]
            simp [h1, h2, h3, hr, h5, h6, h7, h8]
            exact upsert_keys_nodup _ _ _ h
          by_cases h9 : o.pinProgOk
          case neg =>
            simp only [addSingleAttachProgram]
            simp [h1, h2, h3, hr, h5, h6, h7, h8, h9]
            exact eraseKey_keys_nodup _ _ (upsert_keys_nodup _ _ _ h)
          simp only [addSingleAttachProgram]
          simp [h1, h2, h3, hr, h5, h6, h7, h8, h9]
          exact upsert_keys_nodup _ _ _ h
  | uprobe up =>
      cases hr : up.info.retprobe with
      | true =>
          by_cases h5 : o.progLoadOk
          case neg => simpa [addSingleAttachProgram, h1, h2, h3, hr, h5] using h
          by_cases h6 : o.loadedProbeType = ProbeType.uretprobe
          case neg =>
            have h6n : ¬(ProbeType.uretprobe = o.loadedProbeType) := fun hx => h6 hx.symm
            simpa [addSingleAttachProgram, h1, h2, h3, hr, h5, h6n] using h
          by_cases h7 : o.attachOk
          case neg =>
            simp only [addSingleAttachProgram]
            simp [h1, h2, h3, hr, h5, h6, h7]
            exact h
          by_cases h8 : o.pinLinkOk
          case neg =>
            simp only [addSingleAttachProgram]
            simp [h1, h2, h3, hr, h5, h6, h7, h8]
            exact upsert_keys_nodup _ _ _ h
          by_cases h9 : o.pinProgOk
          case neg =>
            simp only [addSingleAttachProgram]
            simp [h1, h2, h3, hr, h5, h6, h7, h8, h9]
            exact eraseKey_keys_nodup _ _ (upsert_keys_nodup _ _ _ h)
          simp only [addSingleAttachProgram]
          simp [h1, h2, h3, hr, h5, h6, h7, h8, h9]
          exact upsert_keys_nodup _ _ _ h
      | false =>
          by_cases h5 : o.progLoadOk
          case neg => simpa [addSingleAttachProgram, h1, h2, h3, hr, h5] using h
          by_cases h6 : o.loadedProbeType = ProbeType.uprobe
          case neg =>
            have h6n : ¬(ProbeType.uprobe = o.loadedProbeType) := fun hx => h6 hx.symm
            simpa [addSingleAttachProgram, h1, h2, h3, hr, h5, h6n] using h
          by_cases h7 : o.attachOk
          case neg =>
            simp only [addSingleAttachProgram]
            simp [h1, h2, h3, hr, h5, h6, h7]
            exact h
          by_cases h8 : o.pinLinkOk
          case neg =>
            simp only [addSingleAttachProgram]
            simp [h1, h2, h3, hr, h5, h6, h7, h8]
            exact upsert_keys_nodup _ _ _ h
          by_cases h9 : o.pinProgOk
          case neg =>
            simp only [addSingleAttachProgram]
            simp [h1, h2, h3, hr, h5, h6, h7, h8, h9]
            exact eraseKey_keys_nodup _ _ (upsert_keys_nodup _ _ _ h)
          simp only [addSingleAttachProgram]
          simp [h1, h2, h3, hr, h5, h6, h7, h8, h9]
          exact upsert_keys_nodup _ _ _ h
  | xdp q => simpa [addSingleAttachProgram, h1, h2, h3] using h
  | tc q => simpa [addSingleAttachProgram, h1, h2, h3] using h

theorem manageMapPinPath_programs_eq {s : BpfState} {id : Nat} {mo : Option Nat}
    {path : String} {s1 : BpfState}
    (h : manageMapPinPath s id mo = .ok (path, s1)) : s1.programs = s.programs := by
  unfold manageMapPinPath calcMapPinPath getMapIndex at h
  cases mo with
  | none =>
      simp at h
      rw [← h.2]
  | some x =>
      by_cases hx : (s.maps.lookup x).isSome
      · simp [hx] at h
        rw [← h.2]
      · simp [hx] at h

theorem saveMap_programs_eq {s : BpfState} {id : Nat} {mo : Option Nat} {path : String}
    {s1 : BpfState} (h : saveMap s id mo path = .ok s1) : s1.programs = s.programs := by
  unfold saveMap getMapIndex at h
  cases mo with
  | none =>
      simp at h
      rw [← h]
  | some x =>
      cases hx : s.maps.lookup x with
      | none => simp [hx] at h
      | some m =>
          simp [hx] at h
          rw [← h]

theorem deleteMap_programs_eq {s : BpfState} {id : Nat} {mo : Option Nat}
    {s1 : BpfState} (h : deleteMap s id mo = .ok s1) : s1.programs = s.programs := by
  unfold deleteMap getMapIndex calcMapPinPath at h
  cases mo with
  | none =>
      cases hx : s.maps.lookup id with
      | none => simp [hx] at h
      | some m =>
          by_cases he : (swapRemove m.used_by id).isEmpty <;>
            simp [hx, he] at h <;> rw [← h]
  | some x =>
      cases hx : s.maps.lookup x with
      | none => simp [hx] at h
      | some m =>
          by_cases he : (swapRemove m.used_by id).isEmpty <;>
            simp [hx, he] at h <;> rw [← h]

theorem addPostlude_nodup (id : Nat) (mo : Option Nat) (path : String)
    (res : Except BpfdError Nat) (s2 : BpfState)
    (h2 : (s2.programs.map Prod.fst).Nodup) :
    (((match res with
      | .ok r =>
          match saveMap s2 id mo path with
          | .ok s3 => ((Except.ok r : Except BpfdError Nat), s3)
          | .error e => (.error e, s2)
      | .error e => (.error e, cleanupMapPinPath s2 id mo) :
        Except BpfdError Nat × BpfState).2.programs).map Prod.fst).Nodup := by
  cases res with
  | ok r =>
      cases hsv : saveMap s2 id mo path with
      | ok s3 => simpa [hsv, saveMap_programs_eq hsv] using h2
      | error e => simpa [hsv] using h2
  | error e =>
      simpa [(cleanupMapPinPath_fields s2 id mo).1] using h2

theorem addProgramWithId_keys_nodup (o : KernelOracle) (s : BpfState) (p : Program)
    (id : Nat) (h : (s.programs.map Prod.fst).Nodup) :
    (((addProgramWithId o s p id).2.programs).map Prod.fst).Nodup := by
  cases hm : manageMapPinPath s id p.data.map_owner_uuid with
  | error e => simp [addProgramWithId, hm]; exact h
  | ok pr =>
      obtain ⟨path, s1⟩ := pr
      have hs1 : s1.programs = s.programs := manageMapPinPath_programs_eq hm
      have hn1 : (s1.programs.map Prod.fst).Nodup := by rw [hs1]; exact h
      cases p with
      | xdp q =>
          cases hr : addMultiAttachProgram o s1 (.xdp q) id with
          | mk res s2 =>
              have h2 : (s2.programs.map Prod.fst).Nodup := by
                have := addMultiAttachProgram_keys_nodup o s1 (.xdp q) id hn1
                rw [hr] at this
                exact this
              simp only [addProgramWithId, hm, hr]
              exact addPostlude_nodup id _ path res s2 h2
      | tc q =>
          cases hr : addMultiAttachProgram o s1 (.tc q) id with
          | mk res s2 =>
              have h2 : (s2.programs.map Prod.fst).Nodup := by
                have := addMultiAttachProgram_keys_nodup o s1 (.tc q) id hn1
                rw [hr] at this
                exact this
              simp only [addProgramWithId, hm, hr]
              exact addPostlude_nodup id _ path res s2 h2
      | tracepoint q =>
          cases hr : addSingleAttachProgram o s1 (.tracepoint q) id with
          | mk res s2 =>
              have h2 : (s2.programs.map Prod.fst).Nodup := by
                have := addSingleAttachProgram_keys_nodup o s1 (.tracepoint q) id hn1
                rw [hr] at this
                exact this
              simp only [addProgramWithId, hm, hr]
              exact addPostlude_nodup id _ path res s2 h2
      | kprobe q =>
          cases hr : addSingleAttachProgram o s1 (.kprobe q) id with
          | mk res s2 =>
              have h2 : (s2.programs.map Prod.fst).Nodup := by
                have := addSingleAttachProgram_keys_nodup o s1 (.kprobe q) id hn1
                rw [hr] at this
                exact this
              simp only [addProgramWithId, hm, hr]
              exact addPostlude_nodup id _ path res s2 h2
      | uprobe q =>
          cases hr : addSingleAttachProgram o s1 (.uprobe q) id with
          | mk res s2 =>
              have h2 : (s2.programs.map Prod.fst).Nodup := by
                have := addSingleAttachProgram_keys_nodup o s1 (.uprobe q) id hn1
                rw [hr] at this
                exact this
              simp only [addProgramWithId, hm, hr]
              exact addPostlude_nodup id _ path res s2 h2

theorem addProgram_keys_nodup (o : KernelOracle) (s : BpfState) (p : Program)
    (idArg : Option Nat) (h : (s.programs.map Prod.fst).Nodup) :
    (((addProgram o s p idArg).2.programs).map Prod.fst).Nodup := by
  cases idArg with
  | none => exact addProgramWithId_keys_nodup o s p o.newUuid h
  | some i =>
      by_cases hi : (s.programs.lookup i).isSome
      · simpa [addProgram, hi] using h
      · simpa [addProgram, hi] using addProgramWithId_keys_nodup o s p i h

theorem removeMultiAttachProgram_map_fst (o : KernelOracle) (s : BpfState) (p : Program) :
    ((removeMultiAttachProgram o s p).2.programs).map Prod.fst =
      s.programs.map Prod.fst := by
  unfold removeMultiAttachProgram
  cases hdid : p.dispatcherId with
  | none => simp
  | some did =>
      simp only []
      cases hold : s.dispatchers.lookup did with
      | some d =>
          cases hcnt : (s.programs.filter
              (fun kv => matchesKey p.kind p.if_index p.direction kv.2)).length with
          | zero =>
              simp [hold, hcnt]
          | succ n =>
              by_cases hd : o.dispatcherOk <;>
                simp [hold, hcnt, hd, sortPrograms_map_fst]
      | none =>
          by_cases hd : o.dispatcherOk <;>
            simp [hold, hd, sortPrograms_map_fst]

theorem removeProgram_keys_nodup (o : KernelOracle) (s : BpfState) (id : Nat)
    (req : String) (h : (s.programs.map Prod.fst).Nodup) :
    (((removeProgram o s id req).2.programs).map Prod.fst).Nodup := by
  unfold removeProgram
  cases hp : s.programs.lookup id with
  | none => simpa using h
  | some prog =>
      simp only []
      by_cases hauth : (prog.owner = req ∨ req = SUPERUSER)
      case neg => simpa [hauth] using h
      by_cases hsafe : isMapSafeToDelete s id prog.data.map_owner_uuid
      case neg => simpa [hauth, hsafe] using h
      simp only [hauth, hsafe, not_true_eq_false, if_false]
      have herase : (((eraseKey s.programs id).map Prod.fst)).Nodup :=
        eraseKey_keys_nodup s.programs id h
      cases prog with
      | xdp q =>
          cases hrm : removeMultiAttachProgram o
              { s with programs := eraseKey s.programs id,
                       persisted := eraseKey s.persisted id } (.xdp q) with
          | mk res s2 =>
              have h2 : (s2.programs.map Prod.fst).Nodup := by
                have := removeMultiAttachProgram_map_fst o
                  { s with programs := eraseKey s.programs id,
                           persisted := eraseKey s.persisted id } (.xdp q)
                rw [hrm] at this
                simpa [this] using herase
              cases res with
              | error e => simpa [hrm] using h2
              | ok u =>
                  cases hdm : deleteMap s2 id (Program.xdp q).data.map_owner_uuid with
                  | ok s3 =>
                      have : s3.programs = s2.programs := deleteMap_programs_eq hdm
                      simpa [hrm, hdm, this] using h2
                  | error e => simpa [hrm, hdm] using h2
      | tc q =>
          cases hrm : removeMultiAttachProgram o
              { s with programs := eraseKey s.programs id,
                       persisted := eraseKey s.persisted id } (.tc q) with
          | mk res s2 =>
              have h2 : (s2.programs.map Prod.fst).Nodup := by
                have := removeMultiAttachProgram_map_fst o
                  { s with programs := eraseKey s.programs id,
                           persisted := eraseKey s.persisted id } (.tc q)
                rw [hrm] at this
                simpa [this] using herase
              cases res with
              | error e => simpa [hrm] using h2
              | ok u =>
                  cases hdm : deleteMap s2 id (Program.tc q).data.map_owner_uuid with
                  | ok s3 =>
                      have : s3.programs = s2.programs := deleteMap_programs_eq hdm
                      simpa [hrm, hdm, this] using h2
                  | error e => simpa [hrm, hdm] using h2
      | tracepoint q =>
          cases hdm : deleteMap
              { s with programs := eraseKey s.programs id,
                       persisted := eraseKey s.persisted id } id
              (Program.tracepoint q).data.map_owner_uuid with
          | ok s3 =>
              have h3 := deleteMap_programs_eq hdm
              simpa [hdm, h3] using herase
          | error e => simpa [hdm] using herase
      | kprobe q =>
          cases hdm : deleteMap
              { s with programs := eraseKey s.programs id,
                       persisted := eraseKey s.persisted id } id
              (Program.kprobe q).data.map_owner_uuid with
          | ok s3 =>
              have h3 := deleteMap_programs_eq hdm
              simpa [hdm, h3] using herase
          | error e => simpa [hdm] using herase
      | uprobe q =>
          cases hdm : deleteMap
              { s with programs := eraseKey s.programs id,
                       persisted := eraseKey s.persisted id } id
              (Program.uprobe q).data.map_owner_uuid with
          | ok s3 =>
              have h3 := deleteMap_programs_eq hdm
              simpa [hdm, h3] using herase
          | error e => simpa [hdm] using herase

/-- C7 amended: in every reachable state the ids of currently loaded
programs are pairwise distinct, and a caller-provided id equal to a
currently loaded program's id makes `add_program` fail with the
id-in-use error without touching the state.  (An id freed by a prior
unload may be accepted again — the "never reused within a process
lifetime" half of the original claim does not hold.) -/
theorem C7_amended_unique_ids (s : BpfState) (hs : Reachable s) :
    (s.programs.map Prod.fst).Nodup ∧
    (∀ (o : KernelOracle) (p : Program) (id : Nat) (q : Program),
      s.programs.lookup id = some q →
      addProgram o s p (some id) = (.error (.passedUUIDInUse id), s)) := by
  constructor
  · induction hs with
    | init => simp [initState]
    | add o p idArg _ ih => exact addProgram_keys_nodup o _ p idArg ih
    | remove o id req _ ih => exact removeProgram_keys_nodup o _ id req ih
  · intro o p id q hq
    simp [addProgram, hq]

/-- The helper of C2 at the level of `addProgramWithId`: with the section
check passing and 10 programs already on the key, the add fails with
`TooManyPrograms` and registry, dispatchers, persistence and map groups
are untouched. -/
theorem C2_aux (o : KernelOracle) (s : BpfState) (p : Program) (id : Nat)
    (hkind : p.kind = .xdp ∨ p.kind = .tc)
    (hb : o.bytecodeOk = true) (hl : o.loadOk = true) (hsec : o.sectionOk = true)
    (hmo : mapOwnerOk s p = true)
    (hcnt : 10 ≤ (s.programs.filter
      (fun kv => matchesKey p.kind p.if_index p.direction kv.2)).length) :
    (addProgramWithId o s p id).1 = .error .tooManyPrograms ∧
    (addProgramWithId o s p id).2.programs = s.programs ∧
    (addProgramWithId o s p id).2.dispatchers = s.dispatchers ∧
    (addProgramWithId o s p id).2.persisted = s.persisted ∧
    (addProgramWithId o s p id).2.maps = s.maps := by
  obtain ⟨path, s1, hmanage, h1, h2, h3, h4⟩ := manageMapPinPath_ok s id p hmo
  have hcnt1 : 10 ≤ (s1.programs.filter
      (fun kv => matchesKey p.kind p.if_index p.direction kv.2)).length := by
    rw [h1]; exact hcnt
  have hmulti : addMultiAttachProgram o s1 p id = (.error .tooManyPrograms, s1) := by
    simp [addMultiAttachProgram, hb, hl, hsec, hcnt1]
  obtain ⟨c1, c2, c3, c4⟩ := cleanupMapPinPath_fields s1 id p.data.map_owner_uuid
  cases p with
  | xdp q =>
      have hfin : addProgramWithId o s (.xdp q) id =
          (.error .tooManyPrograms, cleanupMapPinPath s1 id (Program.xdp q).data.map_owner_uuid) := by
        simp only [addProgramWithId, hmanage, hmulti]
      rw [hfin]
      exact ⟨rfl, by rw [c1, h1], by rw [c4, h4], by rw [c2, h2], by rw [c3, h3]⟩
  | tc q =>
      have hfin : addProgramWithId o s (.tc q) id =
          (.error .tooManyPrograms, cleanupMapPinPath s1 id (Program.tc q).data.map_owner_uuid) := by
        simp only [addProgramWithId, hmanage, hmulti]
      rw [hfin]
      exact ⟨rfl, by rw [c1, h1], by rw [c4, h4], by rw [c2, h2], by rw [c3, h3]⟩
  | tracepoint q => simp [Program.kind] at hkind
  | kprobe q => simp [Program.kind] at hkind
  | uprobe q => simp [Program.kind] at hkind

/-- C2: an `add_program` call for an XDP or TC program whose dispatcher
key already carries 10 registered programs fails with `TooManyPrograms`,
and the program registry, the dispatcher map, the persisted records and
the map groups equal their pre-command values (assuming the environment
lets the call reach the count, i.e. bytecode and section resolve). -/
theorem C2_too_many_programs (o : KernelOracle) (s : BpfState) (p : Program)
    (idArg : Option Nat)
    (hkind : p.kind = .xdp ∨ p.kind = .tc)
    (hb : o.bytecodeOk = true) (hl : o.loadOk = true) (hsec : o.sectionOk = true)
    (hid : idFree s idArg = true)
    (hmo : mapOwnerOk s p = true)
    (hcnt : 10 ≤ (s.programs.filter
      (fun kv => matchesKey p.kind p.if_index p.direction kv.2)).length) :
    (addProgram o s p idArg).1 = .error .tooManyPrograms ∧
    (addProgram o s p idArg).2.programs = s.programs ∧
    (addProgram o s p idArg).2.dispatchers = s.dispatchers ∧
    (addProgram o s p idArg).2.persisted = s.persisted ∧
    (addProgram o s p idArg).2.maps = s.maps := by
  cases idArg with
  | none => simpa [addProgram] using C2_aux o s p o.newUuid hkind hb hl hsec hmo hcnt
  | some i =>
      have hid' : (s.programs.lookup i).isSome = false := by
        simp only [idFree, Option.isNone_iff_eq_none] at hid
        simp [hid]
      simpa [addProgram, hid'] using C2_aux o s p i hkind hb hl hsec hmo hcnt

/-- C2 witness (spec scenario 6: ten TC ingress programs, then an 11th). -/
theorem C2_too_many_programs_witness :
    (addProgram okOracle c2State c2New none).1 = .error .tooManyPrograms ∧
    (addProgram okOracle c2State c2New none).2.programs = c2State.programs ∧
    (addProgram okOracle c2State c2New none).2.dispatchers = c2State.dispatchers :=
  ⟨(C2_too_many_programs okOracle c2State c2New none (Or.inr rfl) rfl rfl rfl rfl rfl
      (by decide)).1,
   (C2_too_many_programs okOracle c2State c2New none (Or.inr rfl) rfl rfl rfl rfl rfl
      (by decide)).2.1,
   (C2_too_many_programs okOracle c2State c2New none (Or.inr rfl) rfl rfl rfl rfl rfl
      (by decide)).2.2.1⟩

/-! ### C5: the TC dispatcher config -/

/-- One `chain_call_actions[pos] = proceed_on.mask()` store. -/
theorem foldl_set_get_of_not_mem (l : List (Nat × TcProg)) (arr : List Nat) (i : Nat)
    (h : ∀ kv ∈ l, extSlot kv ≠ i) :
    (l.foldl (fun arr kv => arr.set (extSlot kv) (proceedOnMask kv.2.info.proceed_on)) arr).get? i
      = arr.get? i := by
  induction l generalizing arr with
  | nil => rfl
  | cons a l ih =>
      have ha : extSlot a ≠ i := h a (List.mem_cons_self a l)
      have htail : ∀ kv ∈ l, extSlot kv ≠ i := fun kv hkv => h kv (List.mem_cons_of_mem a hkv)
      simp only [List.foldl_cons]
      rw [ih _ htail, List.get?_set_ne _ _ ha]

/-- After all stores, the slot of any extension holds its mask, provided
the slots are pairwise distinct and in range. -/
theorem foldl_set_get_of_mem (l : List (Nat × TcProg)) (arr : List Nat) (kv : Nat × TcProg)
    (hmem : kv ∈ l)
    (hnodup : (l.map extSlot).Nodup)
    (hrange : extSlot kv < arr.length) :
    (l.foldl (fun arr kv => arr.set (extSlot kv) (proceedOnMask kv.2.info.proceed_on)) arr).get?
      (extSlot kv) = some (proceedOnMask kv.2.info.proceed_on) := by
  induction l generalizing arr with
  | nil => cases hmem
  | cons a l ih =>
      simp only [List.map_cons, List.nodup_cons] at hnodup
      rcases List.mem_cons.mp hmem with rfl | hmem'
      · simp only [List.foldl_cons]
        have hnot : ∀ kv' ∈ l, extSlot kv' ≠ extSlot kv := by
          intro kv' hkv' heq
          exact hnodup.1 (heq ▸ List.mem_map_of_mem extSlot hkv')
        rw [foldl_set_get_of_not_mem l _ _ hnot, List.get?_set_eq_of_lt _ hrange]
      · simp only [List.foldl_cons]
        exact ih _ hmem' hnodup.2 (by simpa using hrange)

/-- C5 amended: for a non-empty TC program set with populated, distinct,
in-range positions, the dispatcher config carries each program's
`proceed_on` bitmask at that program's position, while every per-slot
priority is the constant `DEFAULT_PRIORITY` (50) — not a copy of the
program's own priority — and `num_progs_enabled` is the number of
extensions. -/
theorem C5_amended_tc_dispatcher_config (extensions : List (Nat × TcProg))
    (hpos : ∀ kv ∈ extensions, ∃ i, kv.2.info.current_position = some i ∧ i < 10)
    (hnodup : (extensions.map extSlot).Nodup) :
    (∀ kv ∈ extensions, ∀ i, kv.2.info.current_position = some i →
      (buildTcDispatcherConfig extensions).chain_call_actions.get? i =
        some (proceedOnMask kv.2.info.proceed_on)) ∧
    (buildTcDispatcherConfig extensions).run_prios = List.replicate 10 DEFAULT_PRIORITY ∧
    (buildTcDispatcherConfig extensions).num_progs_enabled = extensions.length := by
  refine ⟨?_, rfl, rfl⟩
  intro kv hkv i hi
  obtain ⟨j, hj, hjlt⟩ := hpos kv hkv
  have hij : i = j := by rw [hi] at hj; exact Option.some_inj.mp hj
  subst hij
  have hslot : extSlot kv = i := by simp [extSlot, hi]
  have := foldl_set_get_of_mem extensions (List.replicate 10 0) kv hkv hnodup
    (by simpa [hslot] using hjlt)
  rw [hslot] at this
  simpa [buildTcDispatcherConfig, extSlot] using this

/-- C5 counterexample: the program occupying slot 0 has priority 10, yet
the config's slot-0 priority is the constant 50 — the config does not
contain a copy of the program's priority. -/
theorem C5_counterexample :
    (∀ kv ∈ c5Ext, kv.2.info.current_position = some 0 ∧
      kv.2.info.metadata.priority = 10) ∧
    (buildTcDispatcherConfig c5Ext).run_prios.get? 0 = some 50 ∧
    ¬ (buildTcDispatcherConfig c5Ext).run_prios.get? 0 = some 10 := by decide

/-- C5 amended witness. -/
theorem C5_amended_tc_dispatcher_config_witness :
    (∀ kv ∈ c5Ext, ∀ i, kv.2.info.current_position = some i →
      (buildTcDispatcherConfig c5Ext).chain_call_actions.get? i =
        some (proceedOnMask kv.2.info.proceed_on)) ∧
    (buildTcDispatcherConfig c5Ext).run_prios = List.replicate 10 DEFAULT_PRIORITY :=
  ⟨(C5_amended_tc_dispatcher_config c5Ext (by decide) (by decide)).1,
   (C5_amended_tc_dispatcher_config c5Ext (by decide) (by decide)).2.1⟩

/-- C3: a concrete `add_program` failure that leaves residual state.  A
kprobe load in which attach succeeds but pinning the link fails returns
the pin-link error, yet the program remains in the registry and its
persisted record remains on disk — the post-command state differs from
the pre-command state.  (The source runs compensating deletes after
attach and program-pin failures, but the link-pin failure propagates with
`?` and runs none.) -/
theorem C3_pin_link_failure_residual_state :
    (addProgram pinLinkFailOracle initState c7Prog (some 4)).1 =
      .error .unableToPinLink ∧
    ((addProgram pinLinkFailOracle initState c7Prog (some 4)).2.programs.lookup 4).isSome
      = true ∧
    ((addProgram pinLinkFailOracle initState c7Prog (some 4)).2.persisted.lookup 4).isSome
      = true ∧
    (addProgram pinLinkFailOracle initState c7Prog (some 4)).2.programs ≠
      initState.programs := by decide

/-- C7 counterexample: the id of a program assigned (and loaded) earlier
in the process lifetime is accepted again after that program has been
unloaded — ids of unloaded programs are reused. -/
theorem C7_counterexample_id_reuse :
    (addProgram kprobeOracle initState c7Prog (some 5)).1 = .ok 5 ∧
    (removeProgram kprobeOracle (addProgram kprobeOracle initState c7Prog (some 5)).2
      5 "u").1 = .ok () ∧
    (addProgram kprobeOracle
      (removeProgram kprobeOracle (addProgram kprobeOracle initState c7Prog (some 5)).2
        5 "u").2 c7Prog (some 5)).1 = .ok 5 := by decide

/-- C7 amended witness. -/
theorem C7_amended_unique_ids_witness :
    (((addProgram kprobeOracle initState c7Prog (some 5)).2.programs.map Prod.fst).Nodup) ∧
    (addProgram kprobeOracle (addProgram kprobeOracle initState c7Prog (some 5)).2
      c7Prog (some 5)) =
      (.error (.passedUUIDInUse 5),
        (addProgram kprobeOracle initState c7Prog (some 5)).2) := by
  have hr : Reachable (addProgram kprobeOracle initState c7Prog (some 5)).2 :=
    Reachable.add kprobeOracle c7Prog (some 5) Reachable.init
  have hmain := C7_amended_unique_ids _ hr
  refine ⟨hmain.1, ?_⟩
  exact hmain.2 kprobeOracle c7Prog 5 (c7Prog.setKernelInfo ⟨5⟩) (by decide)

/-- C1 counterexample, two reachable states.

Part A (tiebreak): after three *successful* adds on one key — `c1ProgA`
under id 2, `c1ProgA` under id 1, `c1ProgB` under id 3 — the programs
with ids 1 and 2 carry *identical* metadata `(10, "s", attached=true)` at
the final re-sort, so every comparator on `Metadata` (a function of
priority, name and attached only) ties them and the stable sort keeps the
registry's iteration order: id 2 gets position 0 and id 1 gets position 1,
although id 1 < id 2 and their priorities are equal — refuting the
tiebreak by program id.

Part B (contiguity): on top of the one-program state, an *accepted* add
of a priority-5 program under id 1 that fails at the dispatcher rebuild
(after `sort_programs` has re-assigned positions) leaves a reachable
state whose single program on the key holds position 1, not 0 — the
positions of the key do not form `{0, …, count−1}` there. -/
theorem C1_counterexample_tiebreak :
    ((addProgram okOracle initState c1ProgA (some 2)).1 = .ok 2 ∧
     (addProgram okOracle c1sA1 c1ProgA (some 1)).1 = .ok 1 ∧
     (addProgram okOracle c1sA2 c1ProgB (some 3)).1 = .ok 3 ∧
     Reachable c1sA3 ∧
     (c1sA3.programs.lookup 1).map Program.metadata =
       (c1sA3.programs.lookup 2).map Program.metadata ∧
     ((c1sA3.programs.lookup 1).map Program.priority = some 10 ∧
      (c1sA3.programs.lookup 2).map Program.priority = some 10) ∧
     (c1sA3.programs.lookup 2).map Program.position = some (some 0) ∧
     (c1sA3.programs.lookup 1).map Program.position = some (some 1)) ∧
    ((addProgram dispFailOracle c1sA1 c1ProgLow (some 1)).1 = .error .dispatcherError ∧
     Reachable c1sB ∧
     c1sB.programs.lookup 1 = none ∧
     (c1sB.programs.filter
       (fun kv => matchesKey .tc (some 7) (some .ingress) kv.2)).length = 1 ∧
     (c1sB.programs.lookup 2).map Program.position = some (some 1)) := by
  refine ⟨⟨by decide, by decide, by decide, ?_, by decide, by decide, by decide, by decide⟩,
    ⟨by decide, ?_, by decide, by decide, by decide⟩⟩
  · exact Reachable.add okOracle c1ProgB (some 3)
      (Reachable.add okOracle c1ProgA (some 1)
        (Reachable.add okOracle c1ProgA (some 2) Reachable.init))
  · exact Reachable.add dispFailOracle c1ProgLow (some 1)
      (Reachable.add okOracle c1ProgA (some 2) Reachable.init)

/-- C1 amended witness. -/
theorem C1_amended_positions_witness :
    (((sortPrograms c2State .tc (some 7) (some .ingress)).programs.filter
        (fun kv => matchesKey .tc (some 7) (some .ingress) kv.2)).map
        (fun kv => kv.2.position)).Perm
      ((List.range ((sortPrograms c2State .tc (some 7) (some .ingress)).programs.filter
        (fun kv => matchesKey .tc (some 7) (some .ingress) kv.2)).length).map some) ∧
    (∀ kv1 ∈ (sortPrograms c2State .tc (some 7) (some .ingress)).programs.filter
        (fun kv => matchesKey .tc (some 7) (some .ingress) kv.2),
     ∀ kv2 ∈ (sortPrograms c2State .tc (some 7) (some .ingress)).programs.filter
        (fun kv => matchesKey .tc (some 7) (some .ingress) kv.2),
      kv1.2.priority < kv2.2.priority →
      ∃ i j, kv1.2.position = some i ∧ kv2.2.position = some j ∧ i < j) :=
  C1_amended_positions c2State .tc (some 7) (some .ingress) (by decide) (Or.inr rfl)

/-- C8 witness. -/
theorem C8_missing_map_group_witness :
    ∃ (o : KernelOracle) (s : BpfState) (p : Program),
      p.data.map_owner_uuid = some 3 ∧ s.maps.lookup 3 = none ∧ idFree s none = true ∧
      addProgram o s p none = (.error (.error "map_owner_uuid does not exists"), s) := by
  refine ⟨⟨true, true, true, true, .kprobe, true, true, true, true, fun n => ⟨n⟩, 0⟩,
    initState,
    .tracepoint ⟨⟨"", "", [], some 3, "u", none⟩, ⟨"a/b"⟩⟩, rfl, rfl, rfl, ?_⟩
  exact C8_missing_map_group _ _ _ none 3 rfl rfl rfl

end Bpfd
